import Mathlib

/-!
Verification of the thermal asymmetry analysis engine of the termografia
repository (src/core/thermal_analyzer.py, src/core/multipoint_analyzer.py,
src/core/hotspot_detector.py).

Temperatures are modelled as exact rationals (the Python code computes with
IEEE floats; all claims under scrutiny concern exact arithmetic relations,
thresholds and data-flow, which we model over ℚ).  Python dictionaries are
modelled as association lists with a first-match lookup; NumPy arrays as
lists of rationals.  The OpenCV rasterisation and segmentation primitives
(cv2.fillPoly, morphology, findContours) are not re-implemented: functions
that consume their output take that output as an explicit parameter.
-/

/-- First-match lookup in an association list; models Python dict access
(`d[k]` / `k in d`), where keys are unique. -/
def dictGet {α : Type} (k : String) : List (String × α) → Option α
  | [] => none
  | p :: ps => if p.1 = k then some p.2 else dictGet k ps

/-- Maximum of a list of rationals; models Python `max` (only ever applied
to non-empty lists in the source; 0 is a junk value for `[]`). -/
def listMax : List ℚ → ℚ
  | [] => 0
  | x :: xs => xs.foldl max x

/-- Minimum of a list of rationals; models Python `min`. -/
def listMin : List ℚ → ℚ
  | [] => 0
  | x :: xs => xs.foldl min x

/-- Arithmetic mean; models `np.mean` (in ℚ, `sum / 0 = 0` for `[]`). -/
def listMean (xs : List ℚ) : ℚ := xs.sum / (xs.length : ℚ)

/-- Insert into an ascending-sorted list of rationals. -/
def insertAsc (x : ℚ) : List ℚ → List ℚ
  | [] => [x]
  | y :: ys => if y ≤ x then y :: insertAsc x ys else x :: y :: ys

/-- Ascending insertion sort; models `np.sort` on the selected pixels. -/
def sortAsc : List ℚ → List ℚ
  | [] => []
  | x :: xs => insertAsc x (sortAsc xs)

/-- Median of a list; models `np.median`: middle element of the sorted list
for odd length, average of the two middle elements for even length. -/
def listMedian (xs : List ℚ) : ℚ :=
  let s := sortAsc xs
  let n := s.length
  if n % 2 = 1 then s.getD (n / 2) 0
  else (s.getD (n / 2 - 1) 0 + s.getD (n / 2) 0) / 2

/-- Population variance; models the square of `np.std` (the standard
deviation itself is its irrational square root, which the rational model
carries as `std_sq`; `std = 0` iff `std_sq = 0`). -/
def listVar (xs : List ℚ) : ℚ :=
  listMean (xs.map (fun x => (x - listMean xs) ^ 2))

/-- Linear-interpolation percentile; models `np.percentile(xs, p)`:
position `p·(n−1)/100` into the sorted values, interpolating between the
two neighbouring order statistics. -/
def listPercentile (xs : List ℚ) (p : ℚ) : ℚ :=
  let s := sortAsc xs
  let n := s.length
  let pos := p * ((n : ℚ) - 1) / 100
  let i := (Int.floor pos).toNat
  let frac := pos - (i : ℚ)
  if i + 1 < n then s.getD i 0 + frac * (s.getD (i + 1) 0 - s.getD i 0)
  else s.getD i 0

/-- Round half to even, as Python's builtin `round` (banker's rounding):
round to the nearest integer, ties going to the even neighbour. -/
def roundHalfEven (q : ℚ) : ℤ :=
  if q - (Int.floor q : ℚ) < 1 / 2 then Int.floor q
  else if 1 / 2 < q - (Int.floor q : ℚ) then Int.floor q + 1
  else if Int.floor q % 2 = 0 then Int.floor q else Int.floor q + 1

/-- `round(q, 2)` of Python: round to 2 decimal places, half to even. -/
def round2 (q : ℚ) : ℚ := ((roundHalfEven (q * 100) : ℤ) : ℚ) / 100

namespace ThermalAnalyzer

/-- `AsymmetryResult` dataclass (thermal_analyzer.py lines 14-22). -/
structure AsymmetryResult where
  delta_t : ℚ
  classification : String
  left_temp : ℚ
  right_temp : ℚ
  clinical_significance : String
  confidence : ℚ
deriving DecidableEq, Repr

/-- Classification thresholds (°C), thermal_analyzer.py lines 38-41. -/
def THRESHOLD_NORMAL : ℚ := 0.5

/-- Threshold between mild and moderate asymmetry. -/
def THRESHOLD_MILD : ℚ := 1.0

/-- Threshold between moderate and severe asymmetry. -/
def THRESHOLD_MODERATE : ℚ := 1.5

/-- `CERVICAL_DERMATOMES` mapping, thermal_analyzer.py lines 44-52. -/
def CERVICAL_DERMATOMES : List (String × String) :=
  [("C3", "Região posterior do pescoço e ombro superior"),
   ("C4", "Região superior do ombro"),
   ("C5", "Região lateral do braço"),
   ("C6", "Antebraço lateral e polegar"),
   ("C7", "Antebraço posterior e dedos médios"),
   ("C8", "Antebraço medial e dedo mínimo"),
   ("T1", "Região medial do braço")]

/-- `_classify_asymmetry` (thermal_analyzer.py lines 109-132): four-bucket
classification of ΔT with thresholds 0.5 / 1.0 / 1.5 (Leve = Mild,
Moderada = Moderate, Severa = Severe). -/
def classify_asymmetry (delta_t : ℚ) : String :=
  if delta_t < THRESHOLD_NORMAL then "Normal"
  else if delta_t < THRESHOLD_MILD then "Leve"
  else if delta_t < THRESHOLD_MODERATE then "Moderada"
  else "Severa"

/-- Severity order of the four buckets (spec-side helper used to state
monotonicity of the classification in ΔT). -/
def bucketRank : String → ℕ
  | "Normal" => 0
  | "Leve" => 1
  | "Moderada" => 2
  | _ => 3

/-- `_get_clinical_significance` (thermal_analyzer.py lines 134-172):
deterministic template text keyed by bucket, with an optional dermatome
sentence appended when the label is a known cervical dermatome. -/
def get_clinical_significance (_delta_t : ℚ) (classification : String)
    (dermatome : Option String) : String :=
  let base_text :=
    if classification = "Normal" then
      "Assimetria dentro dos limites de normalidade. " ++
      "Não indica processo inflamatório ou radiculopatia significativa."
    else if classification = "Leve" then
      "Assimetria térmica leve detectada. " ++
      "Pode indicar processo inflamatório inicial ou irritação radicular leve. " ++
      "Recomenda-se correlação clínica e acompanhamento."
    else if classification = "Moderada" then
      "Assimetria térmica moderada. " ++
      "Sugere processo inflamatório ativo ou radiculopatia. " ++
      "Indica necessidade de investigação clínica complementar."
    else
      "Assimetria térmica severa detectada. " ++
      "Indica processo inflamatório significativo ou radiculopatia importante. " ++
      "Recomenda-se avaliação médica urgente e investigação complementar."
  match dermatome with
  | some d =>
    match dictGet d CERVICAL_DERMATOMES with
    | some desc => base_text ++ "\n\nDermátomo " ++ d ++ ": " ++ desc ++ "."
    | none => base_text
  | none => base_text

/-- The three classification boundaries iterated by `_calculate_confidence`
(thermal_analyzer.py line 190). -/
def thresholds_list : List ℚ := [THRESHOLD_NORMAL, THRESHOLD_MILD, THRESHOLD_MODERATE]

/-- `_calculate_confidence` (thermal_analyzer.py lines 174-195):
`min(ΔT/2, 1)`, multiplied by 0.85 once for every boundary within 0.1 of
ΔT (the loop over the three thresholds), rounded to 2 decimals. -/
def calculate_confidence (delta_t : ℚ) (_classification : String) : ℚ :=
  let confidence := min (delta_t / 2) 1
  let confidence := thresholds_list.foldl
    (fun c threshold => if |delta_t - threshold| < 0.1 then c * 0.85 else c)
    confidence
  round2 confidence

/-- The spec's description of the confidence (§4.3 of the spec): base score
`min(ΔT/2, 1)`, one 0.85 penalty when ΔT is within 0.1 of any boundary,
rounded to 2 decimals.  Stated from the spec's words, to be compared with
`calculate_confidence` which is translated from the source loop. -/
def confidence_spec (delta_t : ℚ) : ℚ :=
  let base := min (delta_t / 2) 1
  round2 (if |delta_t - THRESHOLD_NORMAL| < 0.1 ∨ |delta_t - THRESHOLD_MILD| < 0.1
            ∨ |delta_t - THRESHOLD_MODERATE| < 0.1 then base * 0.85 else base)

/-- Mutable classifier state: the append-only `analysis_history` list
(thermal_analyzer.py line 66). -/
structure State where
  analysis_history : List AsymmetryResult
deriving DecidableEq, Repr

/-- `ThermalAnalyzer.__init__` (thermal_analyzer.py lines 64-66): the
history starts empty. -/
def State.init : State := ⟨[]⟩

/-- The `AsymmetryResult` built by `analyze_asymmetry`
(thermal_analyzer.py lines 81-102), independent of the analyzer state. -/
def asymmetryResult (left_temp right_temp : ℚ) (dermatome : Option String) :
    AsymmetryResult :=
  let delta_t := |left_temp - right_temp|
  let classification := classify_asymmetry delta_t
  let clinical_significance := get_clinical_significance delta_t classification dermatome
  let confidence := calculate_confidence delta_t classification
  { delta_t := delta_t
    classification := classification
    left_temp := left_temp
    right_temp := right_temp
    clinical_significance := clinical_significance
    confidence := confidence }

/-- `analyze_asymmetry` (thermal_analyzer.py lines 68-107): computes the
result record, appends it to the analysis history, and returns it. -/
def analyze_asymmetry (s : State) (left_temp right_temp : ℚ)
    (dermatome : Option String) : State × AsymmetryResult :=
  let result := asymmetryResult left_temp right_temp dermatome
  (⟨s.analysis_history ++ [result]⟩, result)

/-- Iterated calls to `analyze_asymmetry` on a starting state, one call per
input triple; used to state the history invariant. -/
def runAnalyses (s : State) (inputs : List (ℚ × ℚ × Option String)) : State :=
  inputs.foldl (fun st inp => (analyze_asymmetry st inp.1 inp.2.1 inp.2.2).1) s

/-- The statistics record returned by `analyze_roi_statistics`
(thermal_analyzer.py lines 212-233).  The source stores the standard
deviation `std = sqrt(std_sq)`; the rational model carries the variance
`std_sq`, which determines it (`std = 0` iff `std_sq = 0`). -/
structure ROIStatistics where
  mean : ℚ
  median : ℚ
  std_sq : ℚ
  min : ℚ
  max : ℚ
  q25 : ℚ
  q75 : ℚ
  count : ℕ
deriving DecidableEq, Repr

/-- `thermal_data[roi_mask > 0]` (thermal_analyzer.py line 210): the frame
pixels at positions where the mask is set, both arrays flattened. -/
def select_roi (thermal_data : List ℚ) (roi_mask : List ℕ) : List ℚ :=
  (thermal_data.zip roi_mask).filterMap (fun p => if 0 < p.2 then some p.1 else none)

/-- `analyze_roi_statistics` (thermal_analyzer.py lines 197-233): all-zero
record when the mask selects no pixel, otherwise the statistics of exactly
the selected values. -/
def analyze_roi_statistics (thermal_data : List ℚ) (roi_mask : List ℕ) :
    ROIStatistics :=
  let roi_temps := select_roi thermal_data roi_mask
  if roi_temps.length = 0 then
    { mean := 0, median := 0, std_sq := 0, min := 0, max := 0,
      q25 := 0, q75 := 0, count := 0 }
  else
    { mean := listMean roi_temps
      median := listMedian roi_temps
      std_sq := listVar roi_temps
      min := listMin roi_temps
      max := listMax roi_temps
      q25 := listPercentile roi_temps 25
      q75 := listPercentile roi_temps 75
      count := roi_temps.length }

/-- One entry of the `asymmetries` list built by `analyze_btt`
(thermal_analyzer.py lines 260-264 and 270-274). -/
structure BTTAsymmetry where
  regions : String
  delta_t : ℚ
  classification : String
deriving DecidableEq, Repr

/-- `BTTResult` dataclass (thermal_analyzer.py lines 25-32).  The prose
fields `thermal_pattern` and `headache_correlation` are pure string
formatting of the same data (lines 300-382) and are elided here; the
claims under scrutiny concern `regions`, `asymmetries` and `max_delta_t`. -/
structure BTTResult where
  regions : List (String × ℚ)
  asymmetries : List BTTAsymmetry
  max_delta_t : ℚ
deriving DecidableEq, Repr

/-- The parietal L/R entry of `analyze_btt` (thermal_analyzer.py lines
256-264): present iff both sides are known and their ΔT is ≥ 0.5 °C. -/
def parietal_asymmetries (region_temps : List (String × ℚ)) : List BTTAsymmetry :=
  match dictGet "parietal_left" region_temps, dictGet "parietal_right" region_temps with
  | some l, some r =>
    let parietal_delta := |l - r|
    if THRESHOLD_NORMAL ≤ parietal_delta then
      [⟨"Parietal L/R", parietal_delta, classify_asymmetry parietal_delta⟩]
    else []
  | _, _ => []

/-- The temporal L/R entry of `analyze_btt` (thermal_analyzer.py lines
266-274). -/
def temporal_asymmetries (region_temps : List (String × ℚ)) : List BTTAsymmetry :=
  match dictGet "temporal_left" region_temps, dictGet "temporal_right" region_temps with
  | some l, some r =>
    let temporal_delta := |l - r|
    if THRESHOLD_NORMAL ≤ temporal_delta then
      [⟨"Temporal L/R", temporal_delta, classify_asymmetry temporal_delta⟩]
    else []
  | _, _ => []

/-- `analyze_btt` (thermal_analyzer.py lines 235-298): collects the
parietal and temporal asymmetry entries and the largest ΔT among them
(lines 276-280, starting from 0.0). -/
def analyze_btt (region_temps : List (String × ℚ)) : BTTResult :=
  let asymmetries := parietal_asymmetries region_temps ++ temporal_asymmetries region_temps
  let max_delta := asymmetries.foldl
    (fun max_delta asym => if max_delta < asym.delta_t then asym.delta_t else max_delta) 0
  { regions := region_temps, asymmetries := asymmetries, max_delta_t := max_delta }

end ThermalAnalyzer

namespace HotspotDetector

/-- One detected hotspot region, the dictionary built by `_find_regions`
(hotspot_detector.py lines 245-254).  The `contour` field (an OpenCV pixel
array used only for drawing) is elided. -/
structure Region where
  bbox : ℤ × ℤ × ℤ × ℤ
  centroid : ℤ × ℤ
  area : ℕ
  temp_mean : ℚ
  temp_max : ℚ
  temp_min : ℚ
  position : Option String
deriving DecidableEq, Repr

/-- Detector configuration (hotspot_detector.py lines 21-37). -/
structure Config where
  percentile_threshold : ℚ
  min_region_size : ℕ
  max_regions : ℕ
deriving DecidableEq, Repr

/-- The default configuration: 80th percentile, 100-pixel minimum region,
at most 2 regions. -/
def Config.default : Config :=
  { percentile_threshold := 80, min_region_size := 100, max_regions := 2 }

/-- `_classify_positions` (hotspot_detector.py lines 258-279): tag each
region `left` when its centroid x is strictly left of the image midpoint,
`right` otherwise. -/
def classify_positions (regions : List Region) (image_width : ℕ) : List Region :=
  let center_x : ℚ := (image_width : ℚ) / 2
  regions.map (fun region =>
    if (region.centroid.1 : ℚ) < center_x then { region with position := some "left" }
    else { region with position := some "right" })

/-- Insertion step of the descending sort by mean temperature. -/
def insertByTemp (r : Region) : List Region → List Region
  | [] => [r]
  | x :: xs => if r.temp_mean ≤ x.temp_mean then x :: insertByTemp r xs else r :: x :: xs

/-- `regions.sort(key=temp_mean, reverse=True)` (hotspot_detector.py line
91): sort descending by mean temperature. -/
def sortByTempDesc : List Region → List Region
  | [] => []
  | x :: xs => insertByTemp x (sortByTempDesc xs)

/-- The post-segmentation pipeline of `detect_hotspots`
(hotspot_detector.py lines 87-97): filter by minimum size, sort descending
by mean temperature, keep at most `max_regions`, tag left/right. -/
def postprocess (cfg : Config) (image_width : ℕ) (regions : List Region) :
    List Region :=
  let filtered := regions.filter (fun r => cfg.min_region_size ≤ r.area)
  let sorted := sortByTempDesc filtered
  let truncated := sorted.take cfg.max_regions
  classify_positions truncated image_width

/-- `thermal_data is None or thermal_data.size == 0` (hotspot_detector.py
line 63); the size of a 2-D array is its total element count. -/
def frame_invalid : Option (List (List ℚ)) → Bool
  | none => true
  | some f => (f.map List.length).sum == 0

/-- `thermal_data.shape[1]`, the frame width used for left/right tagging
(hotspot_detector.py line 97). -/
def frame_width : Option (List (List ℚ)) → ℕ
  | none => 0
  | some f => (f.headD []).length

/-- The one exception `detect_hotspots` can raise: the `ValueError` for an
unknown method tag (hotspot_detector.py line 79). -/
inductive DetectError where
  | unknownMethod (method : String)
deriving DecidableEq, Repr

/-- `detect_hotspots` (hotspot_detector.py lines 39-105).  On a None or
empty frame it logs a warning and returns the empty list (lines 63-65); on
an unknown method tag it raises (line 79); otherwise it runs the
segmentation and the post-processing pipeline.  The OpenCV segmentation
(thresholding, morphology, `_find_regions`) is not re-implemented: its
output — the list of connected regions with their statistics — is the
explicit parameter `found_regions`. -/
def detect_hotspots (cfg : Config) (thermal_data : Option (List (List ℚ)))
    (method : String) (found_regions : List Region) :
    Except DetectError (List Region) :=
  if frame_invalid thermal_data then Except.ok []
  else if method = "percentile" ∨ method = "otsu" ∨ method = "adaptive" then
    Except.ok (postprocess cfg (frame_width thermal_data) found_regions)
  else Except.error (DetectError.unknownMethod method)

end HotspotDetector

namespace MultiPointAnalyzer

/-- `AnatomicalROI` dataclass (anatomical_template.py lines 13-23). -/
structure AnatomicalROI where
  name : String
  anatomical_location : String
  coordinates : List (ℤ × ℤ)
  region_type : String
  expected_temp_range : Option (ℚ × ℚ)
  notes : String
deriving DecidableEq, Repr

/-- The per-ROI step of `analyze_template` (multipoint_analyzer.py lines
67-99): an ROI without coordinates is skipped (lines 68-70); otherwise its
scaled, clamped, rasterised pixel selection — the OpenCV part, abstracted
as the parameter `select` — either selects no pixel and the ROI is skipped
(lines 98-99), or contributes its mean temperature and pixel count.  The
returned triple is (name, mean temperature, pixel count). -/
def roi_entry (select : AnatomicalROI → List ℚ) (roi : AnatomicalROI) :
    Option (String × ℚ × ℕ) :=
  if roi.coordinates = [] then none
  else
    let roi_region := select roi
    if 0 < roi_region.length then
      some (roi.name, listMean roi_region, roi_region.length)
    else none

/-- The entries accumulated by the `analyze_template` loop, in template
order. -/
def template_entries (rois : List AnatomicalROI)
    (select : AnatomicalROI → List ℚ) : List (String × ℚ × ℕ) :=
  rois.filterMap (roi_entry select)

/-- The `roi_temperatures` dict built by `analyze_template`
(multipoint_analyzer.py lines 64, 95). -/
def roi_temperatures_of (rois : List AnatomicalROI)
    (select : AnatomicalROI → List ℚ) : List (String × ℚ) :=
  (template_entries rois select).map (fun e => (e.1, e.2.1))

/-- The `roi_pixel_counts` dict built by `analyze_template`
(multipoint_analyzer.py lines 65, 96). -/
def roi_pixel_counts_of (rois : List AnatomicalROI)
    (select : AnatomicalROI → List ℚ) : List (String × ℕ) :=
  (template_entries rois select).map (fun e => (e.1, e.2.2))

/-- `_build_comparison_matrix` (multipoint_analyzer.py lines 126-150):
for every ordered pair of distinct measured ROIs, the signed difference
`temp[roi1] - temp[roi2]`; dict iteration pairs each key with its value. -/
def build_comparison_matrix (roi_temperatures : List (String × ℚ)) :
    List (String × List (String × ℚ)) :=
  roi_temperatures.map (fun roi1 =>
    (roi1.1, roi_temperatures.filterMap (fun roi2 =>
      if roi1.1 ≠ roi2.1 then some (roi2.1, roi1.2 - roi2.2) else none)))

/-- Entry lookup `matrix[A][B]` in the comparison matrix. -/
def matrixGet (matrix : List (String × List (String × ℚ))) (a b : String) :
    Option ℚ :=
  (dictGet a matrix).bind (dictGet b)

/-- Total number of (off-diagonal) entries held by the matrix. -/
def matrixEntryCount (matrix : List (String × List (String × ℚ))) : ℕ :=
  (matrix.map (fun row => row.2.length)).sum

/-- First index of a value in a list; models Python `list.index`. -/
def idxOf (x : ℚ) : List ℚ → ℕ
  | [] => 0
  | y :: ys => if y = x then 0 else idxOf x ys + 1

/-- One `group_result` dict of `_analyze_comparison_groups`
(multipoint_analyzer.py lines 201-209). -/
structure GroupResult where
  group_rois : List String
  temperatures : List (String × ℚ)
  max_delta_t : ℚ
  max_temp_roi : String
  min_temp_roi : String
  avg_temp : ℚ
  classification : Option String
deriving DecidableEq, Repr

/-- The members of a group that have a measured temperature
(multipoint_analyzer.py line 171). -/
def valid_rois_of (roi_temperatures : List (String × ℚ)) (group : List String) :
    List String :=
  group.filter (fun roi => (dictGet roi roi_temperatures).isSome)

/-- The body of the `_analyze_comparison_groups` loop for a single group
(multipoint_analyzer.py lines 169-211): `none` models the `continue` for a
group with fewer than 2 measured members (lines 173-175); otherwise the
spread, hottest and coldest member, mean, and — only for exactly two
members — the inline four-bucket classification (lines 188-199). -/
def analyze_group (roi_temperatures : List (String × ℚ)) (group : List String) :
    Option GroupResult :=
  let valid_rois := valid_rois_of roi_temperatures group
  if valid_rois.length < 2 then none
  else
    let temps := valid_rois.map (fun roi => (dictGet roi roi_temperatures).getD 0)
    let max_delta := listMax temps - listMin temps
    let max_roi := valid_rois.getD (idxOf (listMax temps) temps) ""
    let min_roi := valid_rois.getD (idxOf (listMin temps) temps) ""
    let classification :=
      if valid_rois.length = 2 then
        let delta_t := |temps.getD 0 0 - temps.getD 1 0|
        some (if delta_t < 0.5 then "Normal"
              else if delta_t < 1.0 then "Leve"
              else if delta_t < 1.5 then "Moderada"
              else "Severa")
      else none
    some { group_rois := valid_rois
           temperatures := valid_rois.map (fun roi =>
             (roi, (dictGet roi roi_temperatures).getD 0))
           max_delta_t := max_delta
           max_temp_roi := max_roi
           min_temp_roi := min_roi
           avg_temp := listMean temps
           classification := classification }

/-- `_analyze_comparison_groups` (multipoint_analyzer.py lines 152-213):
evaluate every group, skipping (not failing on) those with fewer than two
measured members. -/
def analyze_comparison_groups (comparison_groups : List (List String))
    (roi_temperatures : List (String × ℚ)) : List GroupResult :=
  comparison_groups.filterMap (analyze_group roi_temperatures)

end MultiPointAnalyzer

/-! ## Classification lemmas (thermal_analyzer.py `_classify_asymmetry`) -/

namespace ThermalAnalyzer

/-- ΔT below 0.5 classifies as Normal. -/
theorem classify_eq_normal (d : ℚ) (h : d < 0.5) :
    classify_asymmetry d = "Normal" := by
  unfold classify_asymmetry THRESHOLD_NORMAL THRESHOLD_MILD THRESHOLD_MODERATE
  split_ifs <;> first | rfl | linarith

/-- ΔT in [0.5, 1) classifies as Leve (mild). -/
theorem classify_eq_leve (d : ℚ) (h1 : 0.5 ≤ d) (h2 : d < 1) :
    classify_asymmetry d = "Leve" := by
  unfold classify_asymmetry THRESHOLD_NORMAL THRESHOLD_MILD THRESHOLD_MODERATE
  split_ifs <;> first | rfl | linarith

/-- ΔT in [1, 1.5) classifies as Moderada (moderate). -/
theorem classify_eq_moderada (d : ℚ) (h1 : 1 ≤ d) (h2 : d < 1.5) :
    classify_asymmetry d = "Moderada" := by
  unfold classify_asymmetry THRESHOLD_NORMAL THRESHOLD_MILD THRESHOLD_MODERATE
  split_ifs <;> first | rfl | linarith

/-- ΔT at or above 1.5 classifies as Severa (severe). -/
theorem classify_eq_severa (d : ℚ) (h : 1.5 ≤ d) :
    classify_asymmetry d = "Severa" := by
  unfold classify_asymmetry THRESHOLD_NORMAL THRESHOLD_MILD THRESHOLD_MODERATE
  rw [if_neg (by linarith), if_neg (by linarith), if_neg (by linarith)]

/-- The bucket is monotone non-decreasing in ΔT. -/
theorem classify_mono (d1 d2 : ℚ) (h : d1 ≤ d2) :
    bucketRank (classify_asymmetry d1) ≤ bucketRank (classify_asymmetry d2) := by
  unfold classify_asymmetry THRESHOLD_NORMAL THRESHOLD_MILD THRESHOLD_MODERATE
  split_ifs <;> first | decide | linarith

end ThermalAnalyzer

/-- C1: for every pair of temperatures the asymmetry analysis computes
ΔT = |left − right| (hence ΔT ≥ 0) and buckets it by the fixed
inclusive-lower/exclusive-upper thresholds 0.5 / 1.0 / 1.5: below 0.5
Normal, [0.5, 1) Leve (= Mild), [1, 1.5) Moderada (= Moderate), at or
above 1.5 Severa (= Severe); the bucket is monotone non-decreasing in ΔT;
left 34.5 / right 35.8 gives ΔT = 1.3 classified Moderada, and left 34.2 /
right 34.4 gives ΔT = 0.2 classified Normal. -/
theorem C1_asymmetry_classification (s : ThermalAnalyzer.State) (l r : ℚ)
    (derm : Option String) :
    (ThermalAnalyzer.analyze_asymmetry s l r derm).2.delta_t = |l - r| ∧
    0 ≤ (ThermalAnalyzer.analyze_asymmetry s l r derm).2.delta_t ∧
    (ThermalAnalyzer.analyze_asymmetry s l r derm).2.classification
      = ThermalAnalyzer.classify_asymmetry |l - r| ∧
    (|l - r| < 0.5 → ThermalAnalyzer.classify_asymmetry |l - r| = "Normal") ∧
    (0.5 ≤ |l - r| → |l - r| < 1 → ThermalAnalyzer.classify_asymmetry |l - r| = "Leve") ∧
    (1 ≤ |l - r| → |l - r| < 1.5 → ThermalAnalyzer.classify_asymmetry |l - r| = "Moderada") ∧
    (1.5 ≤ |l - r| → ThermalAnalyzer.classify_asymmetry |l - r| = "Severa") ∧
    (∀ d1 d2 : ℚ, d1 ≤ d2 →
      ThermalAnalyzer.bucketRank (ThermalAnalyzer.classify_asymmetry d1)
        ≤ ThermalAnalyzer.bucketRank (ThermalAnalyzer.classify_asymmetry d2)) ∧
    |(34.5 : ℚ) - 35.8| = 1.3 ∧
    ThermalAnalyzer.classify_asymmetry 1.3 = "Moderada" ∧
    |(34.2 : ℚ) - 34.4| = 0.2 ∧
    ThermalAnalyzer.classify_asymmetry 0.2 = "Normal" := by
  refine ⟨?_, ?_, ?_, ?_, ?_, ?_, ?_, ?_, ?_, ?_, ?_, ?_⟩
  · simp [ThermalAnalyzer.analyze_asymmetry, ThermalAnalyzer.asymmetryResult]
  · simp only [ThermalAnalyzer.analyze_asymmetry, ThermalAnalyzer.asymmetryResult]
    exact abs_nonneg _
  · simp [ThermalAnalyzer.analyze_asymmetry, ThermalAnalyzer.asymmetryResult]
  · exact fun h => ThermalAnalyzer.classify_eq_normal _ h
  · exact fun h1 h2 => ThermalAnalyzer.classify_eq_leve _ h1 h2
  · exact fun h1 h2 => ThermalAnalyzer.classify_eq_moderada _ h1 h2
  · exact fun h => ThermalAnalyzer.classify_eq_severa _ h
  · exact fun d1 d2 h => ThermalAnalyzer.classify_mono d1 d2 h
  · norm_num
  · exact ThermalAnalyzer.classify_eq_moderada _ (by norm_num) (by norm_num)
  · norm_num
  · exact ThermalAnalyzer.classify_eq_normal _ (by norm_num)

/-- Witness for C1 at the concrete input left 34.5, right 35.8. -/
theorem C1_asymmetry_classification_witness :
    ThermalAnalyzer.classify_asymmetry |(34.5 : ℚ) - 35.8| = "Moderada" :=
  (C1_asymmetry_classification ThermalAnalyzer.State.init 34.5 35.8 none).2.2.2.2.2.1
    (by rw [show |(34.5 : ℚ) - 35.8| = 1.3 from by norm_num]; norm_num)
    (by rw [show |(34.5 : ℚ) - 35.8| = 1.3 from by norm_num]; norm_num)

/-! ## Confidence lemmas (thermal_analyzer.py `_calculate_confidence`) -/

/-- Banker's rounding never goes below a lower integer bound. -/
theorem roundHalfEven_nonneg (q : ℚ) (h : 0 ≤ q) : 0 ≤ roundHalfEven q := by
  unfold roundHalfEven
  have h0 : (0 : ℤ) ≤ ⌊q⌋ := Int.floor_nonneg.mpr h
  split_ifs <;> omega

/-- Banker's rounding never exceeds an integer upper bound. -/
theorem roundHalfEven_le (q : ℚ) (n : ℤ) (h : q ≤ (n : ℚ)) : roundHalfEven q ≤ n := by
  unfold roundHalfEven
  have hf : ⌊q⌋ ≤ n := by
    have := Int.floor_le_floor (α := ℚ) h
    simpa using this
  have hfl : ((⌊q⌋ : ℤ) : ℚ) ≤ q := Int.floor_le q
  split_ifs with h1 h2 h3
  · exact hf
  · have hq : ((⌊q⌋ : ℤ) : ℚ) < (n : ℚ) := by linarith
    have : ⌊q⌋ < n := by exact_mod_cast hq
    omega
  · exact hf
  · have hq : ((⌊q⌋ : ℤ) : ℚ) < (n : ℚ) := by linarith
    have : ⌊q⌋ < n := by exact_mod_cast hq
    omega

/-- Rounding to two decimals preserves non-negativity. -/
theorem round2_nonneg (q : ℚ) (h : 0 ≤ q) : 0 ≤ round2 q := by
  unfold round2
  have := roundHalfEven_nonneg (q * 100) (by linarith)
  positivity

/-- Rounding to two decimals preserves the bound 1. -/
theorem round2_le_one (q : ℚ) (h : q ≤ 1) : round2 q ≤ 1 := by
  unfold round2
  have h100 : roundHalfEven (q * 100) ≤ (100 : ℤ) := roundHalfEven_le _ 100 (by push_cast; linarith)
  have : ((roundHalfEven (q * 100) : ℤ) : ℚ) ≤ 100 := by exact_mod_cast h100
  linarith

namespace ThermalAnalyzer

/-- The ±0.1 penalty windows around the boundaries 0.5 and 1.0 are
disjoint. -/
theorem window_disjoint_NM (dt : ℚ) :
    ¬(|dt - THRESHOLD_NORMAL| < 0.1 ∧ |dt - THRESHOLD_MILD| < 0.1) := by
  unfold THRESHOLD_NORMAL THRESHOLD_MILD
  rw [abs_sub_lt_iff, abs_sub_lt_iff]
  rintro ⟨⟨a, b⟩, ⟨c, d⟩⟩
  linarith

/-- The ±0.1 penalty windows around the boundaries 1.0 and 1.5 are
disjoint. -/
theorem window_disjoint_MM (dt : ℚ) :
    ¬(|dt - THRESHOLD_MILD| < 0.1 ∧ |dt - THRESHOLD_MODERATE| < 0.1) := by
  unfold THRESHOLD_MILD THRESHOLD_MODERATE
  rw [abs_sub_lt_iff, abs_sub_lt_iff]
  rintro ⟨⟨a, b⟩, ⟨c, d⟩⟩
  linarith

/-- The ±0.1 penalty windows around the boundaries 0.5 and 1.5 are
disjoint. -/
theorem window_disjoint_NMo (dt : ℚ) :
    ¬(|dt - THRESHOLD_NORMAL| < 0.1 ∧ |dt - THRESHOLD_MODERATE| < 0.1) := by
  unfold THRESHOLD_NORMAL THRESHOLD_MODERATE
  rw [abs_sub_lt_iff, abs_sub_lt_iff]
  rintro ⟨⟨a, b⟩, ⟨c, d⟩⟩
  linarith

/-- The source's threshold loop applies the 0.85 factor at most once, so it
coincides with the spec's single-penalty formula, for every ΔT. -/
theorem calculate_confidence_eq_spec (dt : ℚ) (c : String) :
    calculate_confidence dt c = confidence_spec dt := by
  unfold calculate_confidence confidence_spec thresholds_list
  simp only [List.foldl]
  by_cases h1 : |dt - THRESHOLD_NORMAL| < 0.1 <;>
    by_cases h2 : |dt - THRESHOLD_MILD| < 0.1 <;>
    by_cases h3 : |dt - THRESHOLD_MODERATE| < 0.1
  · exact absurd ⟨h1, h2⟩ (window_disjoint_NM dt)
  · exact absurd ⟨h1, h2⟩ (window_disjoint_NM dt)
  · exact absurd ⟨h1, h3⟩ (window_disjoint_NMo dt)
  · simp [h1, h2, h3]
  · exact absurd ⟨h2, h3⟩ (window_disjoint_MM dt)
  · simp [h1, h2, h3]
  · simp [h1, h2, h3]
  · simp [h1, h2, h3]

/-- The spec-formula confidence lies in [0, 1] for every ΔT ≥ 0. -/
theorem confidence_spec_bounds (dt : ℚ) (h : 0 ≤ dt) :
    0 ≤ confidence_spec dt ∧ confidence_spec dt ≤ 1 := by
  unfold confidence_spec
  have hbase0 : 0 ≤ min (dt / 2) 1 := le_min (by linarith) (by norm_num)
  have hbase1 : min (dt / 2) 1 ≤ 1 := min_le_right _ _
  split_ifs with h1
  · constructor
    · exact round2_nonneg _ (by nlinarith)
    · exact round2_le_one _ (by nlinarith)
  · exact ⟨round2_nonneg _ hbase0, round2_le_one _ hbase1⟩

end ThermalAnalyzer

/-- C2: for every pair (left, right) the classifier's confidence equals
min(ΔT/2, 1), multiplied by 0.85 exactly when ΔT lies within 0.1 of one of
the boundaries 0.5 / 1.0 / 1.5 (the loop can fire at most once since the
windows are disjoint), rounded to 2 decimals; the result lies in [0, 1]. -/
theorem C2_confidence_formula (s : ThermalAnalyzer.State) (l r : ℚ)
    (derm : Option String) :
    (ThermalAnalyzer.analyze_asymmetry s l r derm).2.confidence
      = ThermalAnalyzer.confidence_spec |l - r| ∧
    0 ≤ (ThermalAnalyzer.analyze_asymmetry s l r derm).2.confidence ∧
    (ThermalAnalyzer.analyze_asymmetry s l r derm).2.confidence ≤ 1 := by
  have e : (ThermalAnalyzer.analyze_asymmetry s l r derm).2.confidence
      = ThermalAnalyzer.calculate_confidence |l - r|
          (ThermalAnalyzer.classify_asymmetry |l - r|) := by
    simp [ThermalAnalyzer.analyze_asymmetry, ThermalAnalyzer.asymmetryResult]
  rw [e, ThermalAnalyzer.calculate_confidence_eq_spec]
  have hb := ThermalAnalyzer.confidence_spec_bounds |l - r| (abs_nonneg _)
  exact ⟨rfl, hb.1, hb.2⟩

/-! ## History lemmas (`analysis_history`) -/

namespace ThermalAnalyzer

/-- The state after a run of analyses: the starting history followed by the
results of the calls, in call order. -/
theorem runAnalyses_history (inputs : List (ℚ × ℚ × Option String)) :
    ∀ s : State, (runAnalyses s inputs).analysis_history
      = s.analysis_history
        ++ inputs.map (fun inp => asymmetryResult inp.1 inp.2.1 inp.2.2) := by
  induction inputs with
  | nil => intro s; simp [runAnalyses]
  | cons inp rest ih =>
    intro s
    have step : runAnalyses s (inp :: rest)
        = runAnalyses ⟨s.analysis_history
            ++ [asymmetryResult inp.1 inp.2.1 inp.2.2]⟩ rest := rfl
    rw [step, ih]
    simp

end ThermalAnalyzer

/-- C9: the analysis history is append-only: it starts empty, each
`analyze_asymmetry` call appends exactly its one result (so the previous
history is a prefix of the new one), and after k calls on a fresh analyzer
the history holds exactly the k results in call order. -/
theorem C9_history_append_only :
    ThermalAnalyzer.State.init.analysis_history = [] ∧
    (∀ (s : ThermalAnalyzer.State) (l r : ℚ) (d : Option String),
      (ThermalAnalyzer.analyze_asymmetry s l r d).1.analysis_history
        = s.analysis_history ++ [(ThermalAnalyzer.analyze_asymmetry s l r d).2]) ∧
    (∀ (s : ThermalAnalyzer.State) (l r : ℚ) (d : Option String),
      s.analysis_history <+: (ThermalAnalyzer.analyze_asymmetry s l r d).1.analysis_history) ∧
    (∀ inputs : List (ℚ × ℚ × Option String),
      (ThermalAnalyzer.runAnalyses ThermalAnalyzer.State.init inputs).analysis_history
        = inputs.map (fun inp => ThermalAnalyzer.asymmetryResult inp.1 inp.2.1 inp.2.2)) ∧
    (∀ inputs : List (ℚ × ℚ × Option String),
      (ThermalAnalyzer.runAnalyses ThermalAnalyzer.State.init inputs).analysis_history.length
        = inputs.length) := by
  refine ⟨rfl, fun s l r d => rfl, fun s l r d => ⟨_, rfl⟩, ?_, ?_⟩
  · intro inputs
    rw [ThermalAnalyzer.runAnalyses_history inputs ThermalAnalyzer.State.init]
    rfl
  · intro inputs
    rw [ThermalAnalyzer.runAnalyses_history inputs ThermalAnalyzer.State.init]
    simp [ThermalAnalyzer.State.init]

/-! ## Min/max list lemmas -/

/-- A running maximum is an element of the initial value and the list. -/
theorem foldl_max_mem : ∀ (xs : List ℚ) (x : ℚ), xs.foldl max x ∈ x :: xs := by
  intro xs
  induction xs with
  | nil => intro x; simp
  | cons y ys ih =>
    intro x
    rw [List.foldl_cons]
    have h := ih (max x y)
    rcases List.mem_cons.mp h with h1 | h1
    · rcases max_choice x y with e | e <;> rw [e] at h1 ⊢ <;> simp [h1]
    · exact List.mem_cons.mpr (Or.inr (List.mem_cons.mpr (Or.inr h1)))
  
/-- Every element of the initial value and the list is at most the running
maximum. -/
theorem le_foldl_max : ∀ (xs : List ℚ) (x z : ℚ), z ∈ x :: xs → z ≤ xs.foldl max x := by
  intro xs
  induction xs with
  | nil =>
    intro x z hz
    simp at hz
    simp [hz]
  | cons y ys ih =>
    intro x z hz
    rcases List.mem_cons.mp hz with h1 | h1
    · subst h1
      exact le_trans (le_max_left z y) (ih (max z y) (max z y) (List.mem_cons_self _ _))
    · rcases List.mem_cons.mp h1 with h2 | h2
      · subst h2
        exact le_trans (le_max_right x z) (ih (max x z) (max x z) (List.mem_cons_self _ _))
      · exact ih (max x y) z (List.mem_cons.mpr (Or.inr h2))

/-- A running minimum is an element of the initial value and the list. -/
theorem foldl_min_mem : ∀ (xs : List ℚ) (x : ℚ), xs.foldl min x ∈ x :: xs := by
  intro xs
  induction xs with
  | nil => intro x; simp
  | cons y ys ih =>
    intro x
    rw [List.foldl_cons]
    have h := ih (min x y)
    rcases List.mem_cons.mp h with h1 | h1
    · rcases min_choice x y with e | e <;> rw [e] at h1 ⊢ <;> simp [h1]
    · exact List.mem_cons.mpr (Or.inr (List.mem_cons.mpr (Or.inr h1)))

/-- The running minimum is at most every element of the initial value and
the list. -/
theorem foldl_min_le : ∀ (xs : List ℚ) (x z : ℚ), z ∈ x :: xs → xs.foldl min x ≤ z := by
  intro xs
  induction xs with
  | nil =>
    intro x z hz
    simp at hz
    simp [hz]
  | cons y ys ih =>
    intro x z hz
    rcases List.mem_cons.mp hz with h1 | h1
    · subst h1
      exact le_trans (ih (min z y) (min z y) (List.mem_cons_self _ _)) (min_le_left z y)
    · rcases List.mem_cons.mp h1 with h2 | h2
      · subst h2
        exact le_trans (ih (min x z) (min x z) (List.mem_cons_self _ _)) (min_le_right x z)
      · exact ih (min x y) z (List.mem_cons.mpr (Or.inr h2))

/-- The maximum of a non-empty list is one of its elements. -/
theorem listMax_mem (xs : List ℚ) (h : xs ≠ []) : listMax xs ∈ xs := by
  match xs with
  | [] => exact absurd rfl h
  | x :: rest => exact foldl_max_mem rest x

/-- Every element is at most the maximum. -/
theorem le_listMax (xs : List ℚ) (z : ℚ) (h : z ∈ xs) : z ≤ listMax xs := by
  match xs with
  | [] => simp at h
  | x :: rest => exact le_foldl_max rest x z h

/-- The minimum of a non-empty list is one of its elements. -/
theorem listMin_mem (xs : List ℚ) (h : xs ≠ []) : listMin xs ∈ xs := by
  match xs with
  | [] => exact absurd rfl h
  | x :: rest => exact foldl_min_mem rest x

/-- The minimum is at most every element. -/
theorem listMin_le (xs : List ℚ) (z : ℚ) (h : z ∈ xs) : listMin xs ≤ z := by
  match xs with
  | [] => simp at h
  | x :: rest => exact foldl_min_le rest x z h

/-- C5: ROI statistics extraction: when the mask selects no pixel the
result is the all-zero record with pixel count 0 (a total function — no
exception); otherwise the count, minimum, maximum, mean, median and
variance (the square of the standard deviation) are computed over exactly
the selected pixel values. -/
theorem C5_roi_statistics_totality (thermal_data : List ℚ) (roi_mask : List ℕ) :
    (ThermalAnalyzer.select_roi thermal_data roi_mask = [] →
      ThermalAnalyzer.analyze_roi_statistics thermal_data roi_mask
        = { mean := 0, median := 0, std_sq := 0, min := 0, max := 0,
            q25 := 0, q75 := 0, count := 0 }) ∧
    (ThermalAnalyzer.select_roi thermal_data roi_mask ≠ [] →
      (ThermalAnalyzer.analyze_roi_statistics thermal_data roi_mask).count
        = (ThermalAnalyzer.select_roi thermal_data roi_mask).length ∧
      0 < (ThermalAnalyzer.analyze_roi_statistics thermal_data roi_mask).count ∧
      (ThermalAnalyzer.analyze_roi_statistics thermal_data roi_mask).min
        ∈ ThermalAnalyzer.select_roi thermal_data roi_mask ∧
      (∀ x ∈ ThermalAnalyzer.select_roi thermal_data roi_mask,
        (ThermalAnalyzer.analyze_roi_statistics thermal_data roi_mask).min ≤ x) ∧
      (ThermalAnalyzer.analyze_roi_statistics thermal_data roi_mask).max
        ∈ ThermalAnalyzer.select_roi thermal_data roi_mask ∧
      (∀ x ∈ ThermalAnalyzer.select_roi thermal_data roi_mask,
        x ≤ (ThermalAnalyzer.analyze_roi_statistics thermal_data roi_mask).max) ∧
      (ThermalAnalyzer.analyze_roi_statistics thermal_data roi_mask).mean
          * ((ThermalAnalyzer.select_roi thermal_data roi_mask).length : ℚ)
        = (ThermalAnalyzer.select_roi thermal_data roi_mask).sum ∧
      (ThermalAnalyzer.analyze_roi_statistics thermal_data roi_mask).median
        = listMedian (ThermalAnalyzer.select_roi thermal_data roi_mask) ∧
      (ThermalAnalyzer.analyze_roi_statistics thermal_data roi_mask).std_sq
        = listVar (ThermalAnalyzer.select_roi thermal_data roi_mask)) := by
  constructor
  · intro h
    simp [ThermalAnalyzer.analyze_roi_statistics, h]
  · intro h
    have hlen : (ThermalAnalyzer.select_roi thermal_data roi_mask).length ≠ 0 := by
      simpa [List.length_eq_zero] using h
    have e : ThermalAnalyzer.analyze_roi_statistics thermal_data roi_mask
        = { mean := listMean (ThermalAnalyzer.select_roi thermal_data roi_mask)
            median := listMedian (ThermalAnalyzer.select_roi thermal_data roi_mask)
            std_sq := listVar (ThermalAnalyzer.select_roi thermal_data roi_mask)
            min := listMin (ThermalAnalyzer.select_roi thermal_data roi_mask)
            max := listMax (ThermalAnalyzer.select_roi thermal_data roi_mask)
            q25 := listPercentile (ThermalAnalyzer.select_roi thermal_data roi_mask) 25
            q75 := listPercentile (ThermalAnalyzer.select_roi thermal_data roi_mask) 75
            count := (ThermalAnalyzer.select_roi thermal_data roi_mask).length } := by
      simp [ThermalAnalyzer.analyze_roi_statistics, hlen]
    rw [e]
    refine ⟨rfl, Nat.pos_of_ne_zero hlen, listMin_mem _ h, ?_, ?_, ?_, ?_, rfl, rfl⟩
    · exact fun x hx => listMin_le _ x hx
    · exact listMax_mem _ h
    · exact fun x hx => le_listMax _ x hx
    · have hq : ((ThermalAnalyzer.select_roi thermal_data roi_mask).length : ℚ) ≠ 0 := by
        exact_mod_cast hlen
      simp [listMean, div_mul_cancel₀ _ hq]

/-- Witness for C5 at a concrete frame and an all-zero mask. -/
theorem C5_roi_statistics_totality_witness :
    ThermalAnalyzer.analyze_roi_statistics [35, 36] [0, 0]
      = { mean := 0, median := 0, std_sq := 0, min := 0, max := 0,
          q25 := 0, q75 := 0, count := 0 } :=
  (C5_roi_statistics_totality [35, 36] [0, 0]).1 (by simp [ThermalAnalyzer.select_roi])

/-! ## Hotspot detector lemmas -/

namespace HotspotDetector

/-- Inserting into the descending sort permutes the element onto the
list. -/
theorem insertByTemp_perm (r : Region) (l : List Region) :
    (insertByTemp r l).Perm (r :: l) := by
  induction l with
  | nil => exact List.Perm.refl _
  | cons x xs ih =>
    unfold insertByTemp
    split_ifs with h
    · exact List.Perm.trans (List.Perm.cons x ih) (List.Perm.swap r x xs)
    · exact List.Perm.refl _

/-- Membership in the insertion result. -/
theorem mem_insertByTemp {a r : Region} {l : List Region} :
    a ∈ insertByTemp r l ↔ a = r ∨ a ∈ l := by
  have := (insertByTemp_perm r l).mem_iff (a := a)
  simpa using this

/-- Insertion preserves the descending order. -/
theorem pairwise_insertByTemp (r : Region) (l : List Region)
    (hl : List.Pairwise (fun a b => b.temp_mean ≤ a.temp_mean) l) :
    List.Pairwise (fun a b => b.temp_mean ≤ a.temp_mean) (insertByTemp r l) := by
  induction l with
  | nil => simp [insertByTemp]
  | cons x xs ih =>
    rcases List.pairwise_cons.mp hl with ⟨hx, hxs⟩
    unfold insertByTemp
    split_ifs with h
    · refine List.pairwise_cons.mpr ⟨?_, ih hxs⟩
      intro b hb
      rcases mem_insertByTemp.mp hb with rfl | hb2
      · exact h
      · exact hx b hb2
    · refine List.pairwise_cons.mpr ⟨?_, hl⟩
      intro b hb
      have hxr : x.temp_mean ≤ r.temp_mean := le_of_lt (lt_of_not_le h)
      rcases List.mem_cons.mp hb with rfl | hb2
      · exact hxr
      · exact le_trans (hx b hb2) hxr

/-- The descending sort is a permutation of its input. -/
theorem sortByTempDesc_perm (l : List Region) : (sortByTempDesc l).Perm l := by
  induction l with
  | nil => exact List.Perm.refl _
  | cons x xs ih =>
    exact List.Perm.trans (insertByTemp_perm x (sortByTempDesc xs)) (List.Perm.cons x ih)

/-- The descending sort is sorted by non-increasing mean temperature. -/
theorem pairwise_sortByTempDesc (l : List Region) :
    List.Pairwise (fun a b => b.temp_mean ≤ a.temp_mean) (sortByTempDesc l) := by
  induction l with
  | nil => simp [sortByTempDesc]
  | cons x xs ih => exact pairwise_insertByTemp x (sortByTempDesc xs) ih

/-- Field view of position tagging: each output region is an input region
with only its `position` field rewritten by the midpoint rule. -/
theorem mem_classify_positions {r : Region} {l : List Region} {w : ℕ}
    (h : r ∈ classify_positions l w) :
    ∃ r0 ∈ l, r = { r0 with position := some (if (r0.centroid.1 : ℚ) < (w : ℚ) / 2 then "left" else "right") } := by
  unfold classify_positions at h
  rcases List.mem_map.mp h with ⟨r0, hr0, he⟩
  refine ⟨r0, hr0, ?_⟩
  by_cases hc : (r0.centroid.1 : ℚ) < (w : ℚ) / 2
  · rw [if_pos hc] at he
    rw [if_pos hc]
    exact he.symm
  · rw [if_neg hc] at he
    rw [if_neg hc]
    exact he.symm

end HotspotDetector

/-- C6 counterexample: invoked on a None frame, `detect_hotspots` returns
the empty list as a normal result — it does not raise any error (there is
no `InvalidFrameError` anywhere in the code; the only raisable error is
the unknown-method one, and the returned value here is `Except.ok`). -/
theorem C6_counterexample_none_frame_returns_ok :
    HotspotDetector.detect_hotspots HotspotDetector.Config.default none
      "percentile" [] = Except.ok [] := by
  simp [HotspotDetector.detect_hotspots, HotspotDetector.frame_invalid]

/-- C6 amended: when hotspot detection is invoked on an empty or None
frame it logs a warning and immediately returns an empty region list as a
normal (non-error) result, for every configuration, method tag and
segmentation outcome. -/
theorem C6_empty_frame_returns_empty (cfg : HotspotDetector.Config)
    (thermal_data : Option (List (List ℚ))) (method : String)
    (found : List HotspotDetector.Region)
    (h : HotspotDetector.frame_invalid thermal_data = true) :
    HotspotDetector.detect_hotspots cfg thermal_data method found
      = Except.ok [] := by
  simp [HotspotDetector.detect_hotspots, h]

/-- Witness for the amended C6 at a concrete empty frame. -/
theorem C6_empty_frame_returns_empty_witness :
    HotspotDetector.detect_hotspots HotspotDetector.Config.default
      (some [[], []]) "otsu" [] = Except.ok [] :=
  C6_empty_frame_returns_empty HotspotDetector.Config.default (some [[], []])
    "otsu" [] (by simp [HotspotDetector.frame_invalid])

/-- C7: on a valid (non-empty) frame and a known method tag, hotspot
detection succeeds with the post-processed region list; for every
configuration the post-processing keeps only regions at least
`min_region_size` pixels large, sorts by non-increasing mean temperature,
returns at most `max_regions` regions, and tags each with `left` exactly
when its centroid x lies strictly left of `frame_width / 2` (`right`
otherwise), every returned region being one of the segmented regions with
only its position field rewritten. -/
theorem C7_hotspot_ranking_truncation_tagging (cfg : HotspotDetector.Config)
    (thermal_data : Option (List (List ℚ))) (method : String)
    (found : List HotspotDetector.Region)
    (hframe : HotspotDetector.frame_invalid thermal_data = false)
    (hmethod : method = "percentile" ∨ method = "otsu" ∨ method = "adaptive") :
    HotspotDetector.detect_hotspots cfg thermal_data method found
      = Except.ok (HotspotDetector.postprocess cfg
          (HotspotDetector.frame_width thermal_data) found) ∧
    ∀ (w : ℕ) (regions : List HotspotDetector.Region),
      (HotspotDetector.postprocess cfg w regions).length ≤ cfg.max_regions ∧
      List.Pairwise (fun a b => b.temp_mean ≤ a.temp_mean)
        (HotspotDetector.postprocess cfg w regions) ∧
      ∀ r ∈ HotspotDetector.postprocess cfg w regions,
        cfg.min_region_size ≤ r.area ∧
        r.position = some (if (r.centroid.1 : ℚ) < (w : ℚ) / 2 then "left" else "right") ∧
        ∃ r0 ∈ regions, cfg.min_region_size ≤ r0.area ∧
          r = { r0 with position := r.position } := by
  constructor
  · rcases hmethod with h | h | h <;> subst h <;>
      simp [HotspotDetector.detect_hotspots, hframe]
  · intro w regions
    refine ⟨?_, ?_, ?_⟩
    · calc (HotspotDetector.postprocess cfg w regions).length
          = ((HotspotDetector.sortByTempDesc
              (regions.filter (fun r => cfg.min_region_size ≤ r.area))).take
                cfg.max_regions).length := by
            simp [HotspotDetector.postprocess, HotspotDetector.classify_positions]
        _ ≤ cfg.max_regions := by
            simpa using List.length_take_le cfg.max_regions _
    · have hsorted := HotspotDetector.pairwise_sortByTempDesc
        (regions.filter (fun r => cfg.min_region_size ≤ r.area))
      have htake := hsorted.sublist (List.take_sublist cfg.max_regions _)
      unfold HotspotDetector.postprocess HotspotDetector.classify_positions
      rw [List.pairwise_map]
      refine htake.imp ?_
      intro a b hab
      split_ifs <;> exact hab
    · intro r hr
      have hr2 := HotspotDetector.mem_classify_positions hr
      rcases hr2 with ⟨r0, hr0, he⟩
      have hr0filter : r0 ∈ (HotspotDetector.sortByTempDesc
          (regions.filter (fun reg => decide (cfg.min_region_size ≤ reg.area)))) :=
        List.mem_of_mem_take hr0
      have hr0sorted : r0 ∈ regions.filter (fun reg => decide (cfg.min_region_size ≤ reg.area)) :=
        (HotspotDetector.sortByTempDesc_perm _).mem_iff.mp hr0filter
      rcases List.mem_filter.mp hr0sorted with ⟨hr0mem, hr0area⟩
      have harea : cfg.min_region_size ≤ r0.area := by simpa using hr0area
      refine ⟨?_, ?_, r0, hr0mem, harea, ?_⟩
      · rw [he]
        exact harea
      · rw [he]
      · rw [he]
  
/-- Witness for C7 at a concrete 1×1 frame with the percentile method. -/
theorem C7_hotspot_ranking_truncation_tagging_witness :
    HotspotDetector.detect_hotspots HotspotDetector.Config.default
      (some [[30]]) "percentile" []
      = Except.ok (HotspotDetector.postprocess HotspotDetector.Config.default
          (HotspotDetector.frame_width (some [[30]])) []) :=
  (C7_hotspot_ranking_truncation_tagging HotspotDetector.Config.default
    (some [[30]]) "percentile" []
    (by simp [HotspotDetector.frame_invalid]) (Or.inl rfl)).1

/-! ## BTT lemmas (`analyze_btt`) -/

namespace ThermalAnalyzer

/-- Every parietal entry carries the label "Parietal L/R". -/
theorem mem_parietal_label (rt : List (String × ℚ)) (a : BTTAsymmetry)
    (h : a ∈ parietal_asymmetries rt) : a.regions = "Parietal L/R" := by
  unfold parietal_asymmetries at h
  rcases h1 : dictGet "parietal_left" rt with _ | l <;> rw [h1] at h
  · simp at h
  · rcases h2 : dictGet "parietal_right" rt with _ | r <;> rw [h2] at h
    · simp at h
    · simp only at h
      split_ifs at h
      · rcases List.mem_singleton.mp h with rfl; rfl
      · simp at h

/-- Every temporal entry carries the label "Temporal L/R". -/
theorem mem_temporal_label (rt : List (String × ℚ)) (a : BTTAsymmetry)
    (h : a ∈ temporal_asymmetries rt) : a.regions = "Temporal L/R" := by
  unfold temporal_asymmetries at h
  rcases h1 : dictGet "temporal_left" rt with _ | l <;> rw [h1] at h
  · simp at h
  · rcases h2 : dictGet "temporal_right" rt with _ | r <;> rw [h2] at h
    · simp at h
    · simp only at h
      split_ifs at h
      · rcases List.mem_singleton.mp h with rfl; rfl
      · simp at h

/-- Shape of the parietal entry list: empty exactly when one side is
missing or the ΔT is below 0.5, otherwise the single fully-determined
entry. -/
theorem parietal_asymmetries_spec (rt : List (String × ℚ)) :
    (parietal_asymmetries rt = []
      ∧ ¬∃ l r, dictGet "parietal_left" rt = some l
          ∧ dictGet "parietal_right" rt = some r ∧ (0.5 : ℚ) ≤ |l - r|)
    ∨ ∃ l r, dictGet "parietal_left" rt = some l
        ∧ dictGet "parietal_right" rt = some r ∧ (0.5 : ℚ) ≤ |l - r|
        ∧ parietal_asymmetries rt
            = [⟨"Parietal L/R", |l - r|, classify_asymmetry |l - r|⟩] := by
  unfold parietal_asymmetries
  rcases h1 : dictGet "parietal_left" rt with _ | l
  · left
    refine ⟨rfl, ?_⟩
    rintro ⟨l, r, hl, hr, hd⟩
    exact Option.noConfusion hl
  · rcases h2 : dictGet "parietal_right" rt with _ | r
    · left
      refine ⟨rfl, ?_⟩
      rintro ⟨l2, r2, hl, hr, hd⟩
      exact Option.noConfusion hr
    · simp only
      split_ifs with hth
      · right
        refine ⟨l, r, rfl, rfl, ?_, rfl⟩
        simpa [THRESHOLD_NORMAL] using hth
      · left
        refine ⟨rfl, ?_⟩
        rintro ⟨l2, r2, hl, hr, hd⟩
        obtain rfl : l = l2 := Option.some.inj hl
        obtain rfl : r = r2 := Option.some.inj hr
        exact hth (by simpa [THRESHOLD_NORMAL] using hd)

/-- Shape of the temporal entry list, as for the parietal one. -/
theorem temporal_asymmetries_spec (rt : List (String × ℚ)) :
    (temporal_asymmetries rt = []
      ∧ ¬∃ l r, dictGet "temporal_left" rt = some l
          ∧ dictGet "temporal_right" rt = some r ∧ (0.5 : ℚ) ≤ |l - r|)
    ∨ ∃ l r, dictGet "temporal_left" rt = some l
        ∧ dictGet "temporal_right" rt = some r ∧ (0.5 : ℚ) ≤ |l - r|
        ∧ temporal_asymmetries rt
            = [⟨"Temporal L/R", |l - r|, classify_asymmetry |l - r|⟩] := by
  unfold temporal_asymmetries
  rcases h1 : dictGet "temporal_left" rt with _ | l
  · left
    refine ⟨rfl, ?_⟩
    rintro ⟨l, r, hl, hr, hd⟩
    exact Option.noConfusion hl
  · rcases h2 : dictGet "temporal_right" rt with _ | r
    · left
      refine ⟨rfl, ?_⟩
      rintro ⟨l2, r2, hl, hr, hd⟩
      exact Option.noConfusion hr
    · simp only
      split_ifs with hth
      · right
        refine ⟨l, r, rfl, rfl, ?_, rfl⟩
        simpa [THRESHOLD_NORMAL] using hth
      · left
        refine ⟨rfl, ?_⟩
        rintro ⟨l2, r2, hl, hr, hd⟩
        obtain rfl : l = l2 := Option.some.inj hl
        obtain rfl : r = r2 := Option.some.inj hr
        exact hth (by simpa [THRESHOLD_NORMAL] using hd)

/-- Every collected asymmetry entry has ΔT at least 0.5. -/
theorem mem_asymmetries_delta (rt : List (String × ℚ)) (a : BTTAsymmetry)
    (h : a ∈ parietal_asymmetries rt ++ temporal_asymmetries rt) :
    (0.5 : ℚ) ≤ a.delta_t := by
  rcases List.mem_append.mp h with hp | ht
  · rcases parietal_asymmetries_spec rt with ⟨he, _⟩ | ⟨l, r, _, _, hd, he⟩
    · rw [he] at hp; simp at hp
    · rw [he] at hp
      rcases List.mem_singleton.mp hp with rfl
      simpa using hd
  · rcases temporal_asymmetries_spec rt with ⟨he, _⟩ | ⟨l, r, _, _, hd, he⟩
    · rw [he] at ht; simp at ht
    · rw [he] at ht
      rcases List.mem_singleton.mp ht with rfl
      simpa using hd

/-- The running maximum of the `max_delta_t` loop never decreases below
its initial value. -/
theorem btt_fold_init_le (l : List BTTAsymmetry) :
    ∀ init : ℚ, init ≤ l.foldl
      (fun m a => if m < a.delta_t then a.delta_t else m) init := by
  induction l with
  | nil => intro init; simp
  | cons x xs ih =>
    intro init
    refine le_trans ?_ (ih (if init < x.delta_t then x.delta_t else init))
    split_ifs with h
    · exact le_of_lt h
    · exact le_refl _

/-- Every element's ΔT is at most the running maximum. -/
theorem btt_fold_le (l : List BTTAsymmetry) :
    ∀ (init : ℚ) (a : BTTAsymmetry), a ∈ l → a.delta_t ≤ l.foldl
      (fun m x => if m < x.delta_t then x.delta_t else m) init := by
  induction l with
  | nil => intro init a ha; simp at ha
  | cons x xs ih =>
    intro init a ha
    rcases List.mem_cons.mp ha with rfl | ha2
    · refine le_trans ?_ (btt_fold_init_le xs (if init < a.delta_t then a.delta_t else init))
      split_ifs with h
      · exact le_refl _
      · exact le_of_not_lt h
    · exact ih _ a ha2

/-- The running maximum is either the initial value or some element's ΔT. -/
theorem btt_fold_mem (l : List BTTAsymmetry) :
    ∀ init : ℚ, l.foldl (fun m x => if m < x.delta_t then x.delta_t else m) init = init
      ∨ ∃ a ∈ l, l.foldl (fun m x => if m < x.delta_t then x.delta_t else m) init
          = a.delta_t := by
  induction l with
  | nil => intro init; left; rfl
  | cons x xs ih =>
    intro init
    rcases ih (if init < x.delta_t then x.delta_t else init) with h | ⟨a, ha, he⟩
    · rw [List.foldl_cons, h]
      split_ifs with hc
      · exact Or.inr ⟨x, List.mem_cons_self _ _, rfl⟩
      · exact Or.inl rfl
    · rw [List.foldl_cons, he]
      exact Or.inr ⟨a, List.mem_cons.mpr (Or.inr ha), rfl⟩

end ThermalAnalyzer

/-- C8: the BTT asymmetry list contains a parietal entry iff both parietal
sides are present with |ΔT| ≥ 0.5 °C, and likewise a temporal entry; each
entry carries the pairwise ΔT and its four-bucket classification; the
result's `max_delta_t` bounds every entry's ΔT, is attained by one of them
when the list is non-empty, and is 0.0 when the list is empty. -/
theorem C8_btt_asymmetry_collection (rt : List (String × ℚ)) :
    (ThermalAnalyzer.analyze_btt rt).asymmetries
      = ThermalAnalyzer.parietal_asymmetries rt
        ++ ThermalAnalyzer.temporal_asymmetries rt ∧
    ((∃ a ∈ (ThermalAnalyzer.analyze_btt rt).asymmetries,
        a.regions = "Parietal L/R") ↔
      (∃ l r, dictGet "parietal_left" rt = some l
        ∧ dictGet "parietal_right" rt = some r ∧ (0.5 : ℚ) ≤ |l - r|)) ∧
    ((∃ a ∈ (ThermalAnalyzer.analyze_btt rt).asymmetries,
        a.regions = "Temporal L/R") ↔
      (∃ l r, dictGet "temporal_left" rt = some l
        ∧ dictGet "temporal_right" rt = some r ∧ (0.5 : ℚ) ≤ |l - r|)) ∧
    (∀ a ∈ (ThermalAnalyzer.analyze_btt rt).asymmetries,
      a.regions = "Parietal L/R" →
        ∃ l r, dictGet "parietal_left" rt = some l
          ∧ dictGet "parietal_right" rt = some r ∧ a.delta_t = |l - r|
          ∧ a.classification = ThermalAnalyzer.classify_asymmetry |l - r|) ∧
    (∀ a ∈ (ThermalAnalyzer.analyze_btt rt).asymmetries,
      a.regions = "Temporal L/R" →
        ∃ l r, dictGet "temporal_left" rt = some l
          ∧ dictGet "temporal_right" rt = some r ∧ a.delta_t = |l - r|
          ∧ a.classification = ThermalAnalyzer.classify_asymmetry |l - r|) ∧
    (∀ a ∈ (ThermalAnalyzer.analyze_btt rt).asymmetries,
      a.delta_t ≤ (ThermalAnalyzer.analyze_btt rt).max_delta_t) ∧
    ((ThermalAnalyzer.analyze_btt rt).asymmetries ≠ [] →
      ∃ a ∈ (ThermalAnalyzer.analyze_btt rt).asymmetries,
        (ThermalAnalyzer.analyze_btt rt).max_delta_t = a.delta_t) ∧
    ((ThermalAnalyzer.analyze_btt rt).asymmetries = [] →
      (ThermalAnalyzer.analyze_btt rt).max_delta_t = 0) := by
  have hasym : (ThermalAnalyzer.analyze_btt rt).asymmetries
      = ThermalAnalyzer.parietal_asymmetries rt
        ++ ThermalAnalyzer.temporal_asymmetries rt := rfl
  have hmax : (ThermalAnalyzer.analyze_btt rt).max_delta_t
      = (ThermalAnalyzer.parietal_asymmetries rt
          ++ ThermalAnalyzer.temporal_asymmetries rt).foldl
            (fun m a => if m < a.delta_t then a.delta_t else m) 0 := rfl
  have mem_parietal_of_label : ∀ a ∈ (ThermalAnalyzer.analyze_btt rt).asymmetries,
      a.regions = "Parietal L/R" → a ∈ ThermalAnalyzer.parietal_asymmetries rt := by
    intro a ha hlab
    rw [hasym] at ha
    rcases List.mem_append.mp ha with hp | htp
    · exact hp
    · have := ThermalAnalyzer.mem_temporal_label rt a htp
      rw [this] at hlab
      exact absurd hlab (by decide)
  have mem_temporal_of_label : ∀ a ∈ (ThermalAnalyzer.analyze_btt rt).asymmetries,
      a.regions = "Temporal L/R" → a ∈ ThermalAnalyzer.temporal_asymmetries rt := by
    intro a ha hlab
    rw [hasym] at ha
    rcases List.mem_append.mp ha with hp | htp
    · have := ThermalAnalyzer.mem_parietal_label rt a hp
      rw [this] at hlab
      exact absurd hlab (by decide)
    · exact htp
  refine ⟨hasym, ?_, ?_, ?_, ?_, ?_, ?_, ?_⟩
  · constructor
    · rintro ⟨a, ha, hlab⟩
      have hp := mem_parietal_of_label a ha hlab
      rcases ThermalAnalyzer.parietal_asymmetries_spec rt with ⟨he, _⟩ | ⟨l, r, hl, hr, hd, _⟩
      · rw [he] at hp; simp at hp
      · exact ⟨l, r, hl, hr, hd⟩
    · rintro ⟨l, r, hl, hr, hd⟩
      rcases ThermalAnalyzer.parietal_asymmetries_spec rt with ⟨_, hno⟩ | ⟨l2, r2, hl2, hr2, hd2, he⟩
      · exact absurd ⟨l, r, hl, hr, hd⟩ hno
      · refine ⟨⟨"Parietal L/R", |l2 - r2|, ThermalAnalyzer.classify_asymmetry |l2 - r2|⟩, ?_, rfl⟩
        rw [hasym]
        exact List.mem_append.mpr (Or.inl (by rw [he]; exact List.mem_singleton.mpr rfl))
  · constructor
    · rintro ⟨a, ha, hlab⟩
      have hp := mem_temporal_of_label a ha hlab
      rcases ThermalAnalyzer.temporal_asymmetries_spec rt with ⟨he, _⟩ | ⟨l, r, hl, hr, hd, _⟩
      · rw [he] at hp; simp at hp
      · exact ⟨l, r, hl, hr, hd⟩
    · rintro ⟨l, r, hl, hr, hd⟩
      rcases ThermalAnalyzer.temporal_asymmetries_spec rt with ⟨_, hno⟩ | ⟨l2, r2, hl2, hr2, hd2, he⟩
      · exact absurd ⟨l, r, hl, hr, hd⟩ hno
      · refine ⟨⟨"Temporal L/R", |l2 - r2|, ThermalAnalyzer.classify_asymmetry |l2 - r2|⟩, ?_, rfl⟩
        rw [hasym]
        exact List.mem_append.mpr (Or.inr (by rw [he]; exact List.mem_singleton.mpr rfl))
  · intro a ha hlab
    have hp := mem_parietal_of_label a ha hlab
    rcases ThermalAnalyzer.parietal_asymmetries_spec rt with ⟨he, _⟩ | ⟨l, r, hl, hr, hd, he⟩
    · rw [he] at hp; simp at hp
    · rw [he] at hp
      rcases List.mem_singleton.mp hp with rfl
      exact ⟨l, r, hl, hr, rfl, rfl⟩
  · intro a ha hlab
    have hp := mem_temporal_of_label a ha hlab
    rcases ThermalAnalyzer.temporal_asymmetries_spec rt with ⟨he, _⟩ | ⟨l, r, hl, hr, hd, he⟩
    · rw [he] at hp; simp at hp
    · rw [he] at hp
      rcases List.mem_singleton.mp hp with rfl
      exact ⟨l, r, hl, hr, rfl, rfl⟩
  · intro a ha
    rw [hmax]
    rw [hasym] at ha
    exact ThermalAnalyzer.btt_fold_le _ 0 a ha
  · intro hne
    rcases ThermalAnalyzer.btt_fold_mem
        (ThermalAnalyzer.parietal_asymmetries rt
          ++ ThermalAnalyzer.temporal_asymmetries rt) 0 with h0 | ⟨a, ha, he⟩
    · exfalso
      rw [hasym] at hne
      rcases List.exists_mem_of_ne_nil _ hne with ⟨a, ha⟩
      have h1 := ThermalAnalyzer.mem_asymmetries_delta rt a ha
      have h2 := ThermalAnalyzer.btt_fold_le _ 0 a ha
      rw [h0] at h2
      linarith
    · refine ⟨a, ?_, ?_⟩
      · rw [hasym]; exact ha
      · rw [hmax]; exact he
  · intro he
    rw [hmax]
    rw [hasym] at he
    rw [he]
    rfl

/-- Witness for C8 at a concrete region map with one parietal asymmetry. -/
theorem C8_btt_asymmetry_collection_witness :
    ∃ l r, dictGet "parietal_left"
        [("parietal_left", (34 : ℚ)), ("parietal_right", 35)] = some l ∧
      dictGet "parietal_right"
        [("parietal_left", (34 : ℚ)), ("parietal_right", 35)] = some r ∧
      (0.5 : ℚ) ≤ |l - r| :=
  (C8_btt_asymmetry_collection
      [("parietal_left", (34 : ℚ)), ("parietal_right", 35)]).2.1.mp
    ⟨⟨"Parietal L/R", |(34 : ℚ) - 35|,
        ThermalAnalyzer.classify_asymmetry |(34 : ℚ) - 35|⟩,
      by
        refine List.mem_append.mpr (Or.inl ?_)
        have e1 : dictGet "parietal_left"
            [("parietal_left", (34 : ℚ)), ("parietal_right", 35)] = some 34 := rfl
        have e2 : dictGet "parietal_right"
            [("parietal_left", (34 : ℚ)), ("parietal_right", 35)] = some 35 := rfl
        simp only [ThermalAnalyzer.parietal_asymmetries, e1, e2]
        rw [if_pos (show ThermalAnalyzer.THRESHOLD_NORMAL ≤ |(34 : ℚ) - 35| from by
          rw [show |(34 : ℚ) - 35| = 1 from by norm_num]
          norm_num [ThermalAnalyzer.THRESHOLD_NORMAL])]
        exact List.mem_singleton.mpr rfl,
      rfl⟩

/-! ## Comparison-matrix lemmas (`_build_comparison_matrix`) -/

/-- Looking up a key-preserving map: the result is the image of the plain
lookup. -/
theorem dictGet_map_keyed {α β : Type} (f : String → α → β) (a : String) :
    ∀ l : List (String × α),
      dictGet a (l.map (fun p => (p.1, f p.1 p.2))) = (dictGet a l).map (f a) := by
  intro l
  induction l with
  | nil => rfl
  | cons p ps ih =>
    simp only [List.map_cons, dictGet]
    split_ifs with h
    · simp [h]
    · exact ih

/-- A key is absent from an association list iff its lookup is `none`. -/
theorem dictGet_eq_none {α : Type} (a : String) :
    ∀ l : List (String × α), a ∉ l.map Prod.fst → dictGet a l = none := by
  intro l
  induction l with
  | nil => intro _; rfl
  | cons p ps ih =>
    intro h
    simp only [List.map_cons, List.mem_cons] at h
    push_neg at h
    simp only [dictGet]
    rw [if_neg (fun e => h.1 e.symm)]
    exact ih h.2

/-- A successful lookup means the key is present. -/
theorem mem_of_dictGet_some {α : Type} (a : String) (v : α) :
    ∀ l : List (String × α), dictGet a l = some v → a ∈ l.map Prod.fst := by
  intro l
  induction l with
  | nil => intro h; exact Option.noConfusion h
  | cons p ps ih =>
    intro h
    simp only [dictGet] at h
    by_cases he : p.1 = a
    · simp [he]
    · rw [if_neg he] at h
      simp [ih h]

/-- The row stored for key `a` in the comparison matrix. -/
theorem dictGet_build_matrix (temps : List (String × ℚ)) (a : String) :
    dictGet a (MultiPointAnalyzer.build_comparison_matrix temps)
      = (dictGet a temps).map
          (fun ta => temps.filterMap
            (fun q => if a ≠ q.1 then some (q.1, ta - q.2) else none)) := by
  exact dictGet_map_keyed
    (fun (k : String) (v : ℚ) =>
      temps.filterMap (fun q => if k ≠ q.1 then some (q.1, v - q.2) else none))
    a temps

/-- Lookup of another key inside a matrix row. -/
theorem dictGet_row (a b : String) (ta : ℚ) (hab : a ≠ b) :
    ∀ temps : List (String × ℚ),
      dictGet b (temps.filterMap
          (fun q => if a ≠ q.1 then some (q.1, ta - q.2) else none))
        = (dictGet b temps).map (fun tb => ta - tb) := by
  intro temps
  induction temps with
  | nil => rfl
  | cons q qs ih =>
    by_cases h : a ≠ q.1
    · simp only [List.filterMap_cons, if_pos h]
      simp only [dictGet]
      split_ifs with h2
      · rfl
      · exact ih
    · push_neg at h
      simp only [List.filterMap_cons, if_neg (by simp [h] : ¬a ≠ q.1)]
      simp only [dictGet]
      rw [if_neg (by rw [← h]; exact fun e => hab e)]
      exact ih

/-- A matrix row holds no entry for its own key. -/
theorem dictGet_row_self (a : String) (ta : ℚ) :
    ∀ temps : List (String × ℚ),
      dictGet a (temps.filterMap
          (fun q => if a ≠ q.1 then some (q.1, ta - q.2) else none)) = none := by
  intro temps
  induction temps with
  | nil => rfl
  | cons q qs ih =>
    by_cases h : a ≠ q.1
    · simp only [List.filterMap_cons, if_pos h]
      simp only [dictGet]
      rw [if_neg (fun e => h e.symm)]
      exact ih
    · push_neg at h
      simp only [List.filterMap_cons, if_neg (by simp [h] : ¬a ≠ q.1)]
      exact ih

/-- Counting the entries kept by an if-some-else-none `filterMap`. -/
theorem length_filterMap_ite {α β : Type} (p : α → Prop) [DecidablePred p]
    (g : α → β) :
    ∀ l : List α,
      (l.filterMap (fun x => if p x then some (g x) else none)).length
        = l.countP (fun x => decide (p x)) := by
  intro l
  induction l with
  | nil => rfl
  | cons x xs ih =>
    by_cases h : p x
    · simp only [List.filterMap_cons, if_pos h, List.length_cons, ih, List.countP_cons]
      simp [h]
    · simp only [List.filterMap_cons, if_neg h, ih, List.countP_cons]
      simp [h]

/-- A row over keys all different from `a` keeps every entry. -/
theorem length_filterMap_all (a : String) (ta : ℚ) :
    ∀ qs : List (String × ℚ), (∀ q ∈ qs, a ≠ q.1) →
      (qs.filterMap (fun q => if a ≠ q.1 then some (q.1, ta - q.2) else none)).length
        = qs.length := by
  intro qs
  induction qs with
  | nil => intro _; rfl
  | cons q rest ih =>
    intro h
    rw [List.filterMap_cons, if_pos (h q (List.mem_cons_self _ _))]
    simp only [List.length_cons]
    rw [ih (fun q2 hq2 => h q2 (List.mem_cons.mpr (Or.inr hq2)))]

/-- With unique keys, the matrix row for a present key has exactly N−1
entries. -/
theorem row_length (a : String) :
    ∀ temps : List (String × ℚ), (temps.map Prod.fst).Nodup →
      a ∈ temps.map Prod.fst → ∀ ta : ℚ,
        (temps.filterMap (fun q => if a ≠ q.1 then some (q.1, ta - q.2) else none)).length
          = temps.length - 1 := by
  intro temps
  induction temps with
  | nil => intro _ h; simp at h
  | cons q qs ih =>
    intro hnd hmem ta
    simp only [List.map_cons, List.nodup_cons] at hnd
    by_cases h : a = q.1
    · rw [List.filterMap_cons, if_neg (by simp [h])]
      have hall : ∀ q2 ∈ qs, a ≠ q2.1 := by
        intro q2 hq2 he
        exact hnd.1 (by rw [← h, he]; exact List.mem_map_of_mem Prod.fst hq2)
      rw [length_filterMap_all a ta qs hall]
      simp
    · have hmem2 : a ∈ qs.map Prod.fst := by
        rw [List.map_cons] at hmem
        rcases List.mem_cons.mp hmem with h1 | h1
        · exact absurd h1 h
        · exact h1
      have hpos : 0 < qs.length := by
        rcases qs with _ | ⟨x, xs⟩
        · simp at hmem2
        · simp
      rw [List.filterMap_cons, if_pos h]
      simp only [List.length_cons]
      rw [ih hnd.2 hmem2 ta]
      omega

/-- C3: for a temperature map with unique ROI names, the comparison matrix
has `matrix[A][B] = temp[A] − temp[B]` for every ordered pair of distinct
present names, no self-entry, `matrix[A][B] = −matrix[B][A]`, and exactly
N·(N−1) off-diagonal entries. -/
theorem C3_comparison_matrix (temps : List (String × ℚ))
    (hnd : (temps.map Prod.fst).Nodup) :
    (∀ a b ta tb, a ≠ b → dictGet a temps = some ta → dictGet b temps = some tb →
      MultiPointAnalyzer.matrixGet (MultiPointAnalyzer.build_comparison_matrix temps) a b
        = some (ta - tb)) ∧
    (∀ a, MultiPointAnalyzer.matrixGet
        (MultiPointAnalyzer.build_comparison_matrix temps) a a = none) ∧
    (∀ a b d, MultiPointAnalyzer.matrixGet
        (MultiPointAnalyzer.build_comparison_matrix temps) a b = some d →
      MultiPointAnalyzer.matrixGet
        (MultiPointAnalyzer.build_comparison_matrix temps) b a = some (-d)) ∧
    MultiPointAnalyzer.matrixEntryCount (MultiPointAnalyzer.build_comparison_matrix temps)
      = temps.length * (temps.length - 1) := by
  refine ⟨?_, ?_, ?_, ?_⟩
  · intro a b ta tb hab ha hb
    unfold MultiPointAnalyzer.matrixGet
    rw [dictGet_build_matrix, ha]
    simp only [Option.map_some', Option.some_bind]
    rw [dictGet_row a b ta hab temps, hb]
    rfl
  · intro a
    unfold MultiPointAnalyzer.matrixGet
    rw [dictGet_build_matrix]
    rcases ha : dictGet a temps with _ | ta
    · rfl
    · simp only [Option.map_some', Option.some_bind]
      exact dictGet_row_self a ta temps
  · intro a b d h
    unfold MultiPointAnalyzer.matrixGet at h
    rw [dictGet_build_matrix] at h
    rcases ha : dictGet a temps with _ | ta
    · rw [ha] at h
      simp at h
    · rw [ha] at h
      simp only [Option.map_some', Option.some_bind] at h
      by_cases hab : a = b
      · subst hab
        rw [dictGet_row_self a ta temps] at h
        exact Option.noConfusion h
      · rw [dictGet_row a b ta hab temps] at h
        rcases Option.map_eq_some'.mp h with ⟨tb, hb, hd⟩
        unfold MultiPointAnalyzer.matrixGet
        rw [dictGet_build_matrix, hb]
        simp only [Option.map_some', Option.some_bind]
        rw [dictGet_row b a tb (fun e => hab e.symm) temps, ha]
        simp only [Option.map_some']
        rw [← hd]
        ring_nf
  · unfold MultiPointAnalyzer.matrixEntryCount MultiPointAnalyzer.build_comparison_matrix
    rw [List.map_map]
    have hcong : ∀ p ∈ temps,
        ((fun row => row.2.length) ∘ fun roi1 =>
          ((roi1 : String × ℚ).1, temps.filterMap
            (fun roi2 => if roi1.1 ≠ roi2.1 then some (roi2.1, roi1.2 - roi2.2) else none))) p
        = temps.length - 1 := by
      intro p hp
      exact row_length p.1 temps hnd (List.mem_map_of_mem Prod.fst hp) p.2
    rw [List.map_congr_left hcong]
    simp [List.map_const', List.sum_replicate, smul_eq_mul, Nat.mul_comm]

/-- Witness for C3 at a concrete two-entry temperature map. -/
theorem C3_comparison_matrix_witness :
    MultiPointAnalyzer.matrixGet
      (MultiPointAnalyzer.build_comparison_matrix [("A", (36 : ℚ)), ("B", 35)]) "A" "B"
      = some ((36 : ℚ) - 35) :=
  (C3_comparison_matrix [("A", (36 : ℚ)), ("B", 35)] (by decide)).1 "A" "B" 36 35
    (by decide) rfl rfl

/-! ## Group-comparison lemmas (`_analyze_comparison_groups`) -/

/-- `list.index` of a present value is in range. -/
theorem idxOf_lt_length (x : ℚ) :
    ∀ l : List ℚ, x ∈ l → MultiPointAnalyzer.idxOf x l < l.length := by
  intro l
  induction l with
  | nil => intro h; simp at h
  | cons y ys ih =>
    intro h
    unfold MultiPointAnalyzer.idxOf
    split_ifs with he
    · simp
    · have hx : x ∈ ys := by
        rcases List.mem_cons.mp h with h1 | h1
        · exact absurd h1.symm he
        · exact h1
      simpa using Nat.succ_lt_succ (ih hx)

/-- Indexing at `list.index` recovers the value. -/
theorem getD_idxOf (x : ℚ) :
    ∀ l : List ℚ, x ∈ l → l.getD (MultiPointAnalyzer.idxOf x l) 0 = x := by
  intro l
  induction l with
  | nil => intro h; simp at h
  | cons y ys ih =>
    intro h
    unfold MultiPointAnalyzer.idxOf
    split_ifs with he
    · simpa using he
    · have hx : x ∈ ys := by
        rcases List.mem_cons.mp h with h1 | h1
        · exact absurd h1.symm he
        · exact h1
      simpa using ih hx

/-- For a name list whose every member has a measured temperature, the
name selected at `index(t)` of the temperature list indeed measures `t`
(the hottest/coldest-member identification of the group loop). -/
theorem getD_idxOf_lookup (rt : List (String × ℚ)) (vs : List String)
    (hv : ∀ roi ∈ vs, (dictGet roi rt).isSome = true) (t : ℚ)
    (ht : t ∈ vs.map (fun roi => (dictGet roi rt).getD 0)) :
    dictGet (vs.getD (MultiPointAnalyzer.idxOf t
      (vs.map (fun roi => (dictGet roi rt).getD 0))) "") rt = some t := by
  have hi : MultiPointAnalyzer.idxOf t (vs.map (fun roi => (dictGet roi rt).getD 0))
      < (vs.map (fun roi => (dictGet roi rt).getD 0)).length :=
    idxOf_lt_length t _ ht
  have hiv : MultiPointAnalyzer.idxOf t (vs.map (fun roi => (dictGet roi rt).getD 0))
      < vs.length := by simpa using hi
  rw [List.getD_eq_getElem vs "" hiv]
  have hmem : vs[MultiPointAnalyzer.idxOf t
      (vs.map (fun roi => (dictGet roi rt).getD 0))] ∈ vs := List.getElem_mem hiv
  rcases Option.isSome_iff_exists.mp (hv _ hmem) with ⟨v, hveq⟩
  have h1 := getD_idxOf t (vs.map (fun roi => (dictGet roi rt).getD 0)) ht
  rw [List.getD_eq_getElem _ 0 hi, List.getElem_map] at h1
  rw [hveq] at h1
  simp only [Option.getD_some] at h1
  rw [hveq, h1]

/-- Every member of `valid_rois_of` has a measured temperature. -/
theorem valid_rois_isSome (rt : List (String × ℚ)) (group : List String) :
    ∀ roi ∈ MultiPointAnalyzer.valid_rois_of rt group,
      (dictGet roi rt).isSome = true := by
  intro roi h
  exact (List.mem_filter.mp h).2

/-- A group with fewer than two measured members is skipped
(multipoint_analyzer.py lines 173-175). -/
theorem analyze_group_skip (rt : List (String × ℚ)) (group : List String)
    (h : (MultiPointAnalyzer.valid_rois_of rt group).length < 2) :
    MultiPointAnalyzer.analyze_group rt group = none := by
  simp only [MultiPointAnalyzer.analyze_group]
  rw [if_pos h]

/-- Shape of the result for a group with at least two measured members. -/
theorem analyze_group_eq (rt : List (String × ℚ)) (group : List String)
    (h2 : ¬(MultiPointAnalyzer.valid_rois_of rt group).length < 2) :
    MultiPointAnalyzer.analyze_group rt group = some
      { group_rois := MultiPointAnalyzer.valid_rois_of rt group
        temperatures := (MultiPointAnalyzer.valid_rois_of rt group).map
          (fun roi => (roi, (dictGet roi rt).getD 0))
        max_delta_t :=
          listMax ((MultiPointAnalyzer.valid_rois_of rt group).map
            (fun roi => (dictGet roi rt).getD 0))
          - listMin ((MultiPointAnalyzer.valid_rois_of rt group).map
            (fun roi => (dictGet roi rt).getD 0))
        max_temp_roi := (MultiPointAnalyzer.valid_rois_of rt group).getD
          (MultiPointAnalyzer.idxOf
            (listMax ((MultiPointAnalyzer.valid_rois_of rt group).map
              (fun roi => (dictGet roi rt).getD 0)))
            ((MultiPointAnalyzer.valid_rois_of rt group).map
              (fun roi => (dictGet roi rt).getD 0))) ""
        min_temp_roi := (MultiPointAnalyzer.valid_rois_of rt group).getD
          (MultiPointAnalyzer.idxOf
            (listMin ((MultiPointAnalyzer.valid_rois_of rt group).map
              (fun roi => (dictGet roi rt).getD 0)))
            ((MultiPointAnalyzer.valid_rois_of rt group).map
              (fun roi => (dictGet roi rt).getD 0))) ""
        avg_temp := listMean ((MultiPointAnalyzer.valid_rois_of rt group).map
          (fun roi => (dictGet roi rt).getD 0))
        classification :=
          if (MultiPointAnalyzer.valid_rois_of rt group).length = 2 then
            some (if |((MultiPointAnalyzer.valid_rois_of rt group).map
                    (fun roi => (dictGet roi rt).getD 0)).getD 0 0
                  - ((MultiPointAnalyzer.valid_rois_of rt group).map
                    (fun roi => (dictGet roi rt).getD 0)).getD 1 0| < 0.5 then "Normal"
              else if |((MultiPointAnalyzer.valid_rois_of rt group).map
                    (fun roi => (dictGet roi rt).getD 0)).getD 0 0
                  - ((MultiPointAnalyzer.valid_rois_of rt group).map
                    (fun roi => (dictGet roi rt).getD 0)).getD 1 0| < 1.0 then "Leve"
              else if |((MultiPointAnalyzer.valid_rois_of rt group).map
                    (fun roi => (dictGet roi rt).getD 0)).getD 0 0
                  - ((MultiPointAnalyzer.valid_rois_of rt group).map
                    (fun roi => (dictGet roi rt).getD 0)).getD 1 0| < 1.5 then "Moderada"
              else "Severa")
          else none } := by
  simp only [MultiPointAnalyzer.analyze_group]
  rw [if_neg h2]

/-- C4: group evaluation restricts each group to members with a measured
temperature; a group with fewer than two such members yields no result
(skip, not an exception); a surviving group reports the max−min spread,
a hottest and a coldest member that indeed carry the extreme temperatures,
and the mean; the classification is populated iff exactly two members
survive, in which case it is the four-bucket classification of their
pairwise ΔT.  The scenario group ["A","B","C"] with temperatures A:36,
B:35 and C unknown restricts to [A,B] with spread 1.0 and — since ΔT = 1.0
sits on the inclusive lower bound of the third bucket — bucket Moderada
(Moderate), not Leve as the original claim stated. -/
theorem C4_group_evaluation (groups : List (List String)) (rt : List (String × ℚ)) :
    MultiPointAnalyzer.analyze_comparison_groups groups rt
      = groups.filterMap (MultiPointAnalyzer.analyze_group rt) ∧
    (∀ group : List String, (MultiPointAnalyzer.valid_rois_of rt group).length < 2 →
      MultiPointAnalyzer.analyze_group rt group = none) ∧
    (∀ (group : List String) (res : MultiPointAnalyzer.GroupResult),
      MultiPointAnalyzer.analyze_group rt group = some res →
      res.group_rois = MultiPointAnalyzer.valid_rois_of rt group ∧
      2 ≤ (MultiPointAnalyzer.valid_rois_of rt group).length ∧
      res.max_delta_t
        = listMax ((MultiPointAnalyzer.valid_rois_of rt group).map
            (fun roi => (dictGet roi rt).getD 0))
          - listMin ((MultiPointAnalyzer.valid_rois_of rt group).map
            (fun roi => (dictGet roi rt).getD 0)) ∧
      dictGet res.max_temp_roi rt
        = some (listMax ((MultiPointAnalyzer.valid_rois_of rt group).map
            (fun roi => (dictGet roi rt).getD 0))) ∧
      dictGet res.min_temp_roi rt
        = some (listMin ((MultiPointAnalyzer.valid_rois_of rt group).map
            (fun roi => (dictGet roi rt).getD 0))) ∧
      res.avg_temp = listMean ((MultiPointAnalyzer.valid_rois_of rt group).map
        (fun roi => (dictGet roi rt).getD 0)) ∧
      (res.classification.isSome ↔ (MultiPointAnalyzer.valid_rois_of rt group).length = 2) ∧
      ((MultiPointAnalyzer.valid_rois_of rt group).length = 2 →
        res.classification = some (ThermalAnalyzer.classify_asymmetry
          |((MultiPointAnalyzer.valid_rois_of rt group).map
              (fun roi => (dictGet roi rt).getD 0)).getD 0 0
            - ((MultiPointAnalyzer.valid_rois_of rt group).map
              (fun roi => (dictGet roi rt).getD 0)).getD 1 0|))) ∧
    (MultiPointAnalyzer.analyze_group [("A", (36 : ℚ)), ("B", 35)] ["A", "B", "C"]
      = some { group_rois := ["A", "B"]
               temperatures := [("A", 36), ("B", 35)]
               max_delta_t := 1
               max_temp_roi := "A"
               min_temp_roi := "B"
               avg_temp := 35.5
               classification := some "Moderada" }) := by
  refine ⟨rfl, ?_, ?_, ?_⟩
  · intro group h
    exact analyze_group_skip rt group h
  · intro group res h
    by_cases hlt : (MultiPointAnalyzer.valid_rois_of rt group).length < 2
    · rw [analyze_group_skip rt group hlt] at h
      exact Option.noConfusion h
    · rw [analyze_group_eq rt group hlt] at h
      have hres := (Option.some.inj h).symm
      subst hres
      have hlen2 : 2 ≤ (MultiPointAnalyzer.valid_rois_of rt group).length :=
        Nat.le_of_not_lt hlt
      have htne : (MultiPointAnalyzer.valid_rois_of rt group).map
          (fun roi => (dictGet roi rt).getD 0) ≠ [] := by
        intro he
        have hl := congrArg List.length he
        rw [List.length_map, List.length_nil] at hl
        omega
      refine ⟨rfl, hlen2, rfl, ?_, ?_, rfl, ?_, ?_⟩
      · exact getD_idxOf_lookup rt _ (valid_rois_isSome rt group) _
          (listMax_mem _ htne)
      · exact getD_idxOf_lookup rt _ (valid_rois_isSome rt group) _
          (listMin_mem _ htne)
      · split_ifs with hc <;> simp [hc]
      · intro hc
        rw [if_pos hc]
        rfl
  · have hv : MultiPointAnalyzer.valid_rois_of [("A", (36 : ℚ)), ("B", 35)]
        ["A", "B", "C"] = ["A", "B"] := rfl
    have h2 : ¬(MultiPointAnalyzer.valid_rois_of [("A", (36 : ℚ)), ("B", 35)]
        ["A", "B", "C"]).length < 2 := by
      rw [hv]
      norm_num
    have e1 : ((dictGet "A" [("A", (36 : ℚ)), ("B", 35)]).getD 0) = 36 := rfl
    have e2 : ((dictGet "B" [("A", (36 : ℚ)), ("B", 35)]).getD 0) = 35 := rfl
    have e3 : dictGet "A" [("A", (36 : ℚ)), ("B", 35)] = some 36 := rfl
    have e4 : dictGet "B" [("A", (36 : ℚ)), ("B", 35)] = some 35 := rfl
    have habs : |(36 : ℚ) - 35| = 1 := by norm_num
    rw [analyze_group_eq _ _ h2, hv]
    simp only [List.map_cons, List.map_nil, e1, e2, e3, e4, List.getD_cons_zero,
      List.getD_cons_succ, habs]
    norm_num [listMax, listMin, listMean, MultiPointAnalyzer.idxOf,
      max_def, min_def]

/-- Witness for C4: a group with a single measured member is skipped. -/
theorem C4_group_evaluation_witness :
    MultiPointAnalyzer.analyze_group [("A", (36 : ℚ))] ["A", "B"] = none :=
  (C4_group_evaluation [] [("A", (36 : ℚ))]).2.1 ["A", "B"]
    (by rw [show MultiPointAnalyzer.valid_rois_of [("A", (36 : ℚ))] ["A", "B"]
        = ["A"] from rfl]; norm_num)

/-- C4 counterexample: in the claimed scenario the restricted group [A,B]
has pairwise ΔT = 1.0, which the code classifies as "Moderada"
(Moderate) — not "Leve" (Mild) as the claim asserts, because 1.0 is the
inclusive lower bound of the Moderate bucket. -/
theorem C4_counterexample_boundary_classification :
    (MultiPointAnalyzer.analyze_group [("A", (36 : ℚ)), ("B", 35)]
        ["A", "B", "C"]).map (fun r => r.classification)
      = some (some "Moderada") ∧
    (MultiPointAnalyzer.analyze_group [("A", (36 : ℚ)), ("B", 35)]
        ["A", "B", "C"]).map (fun r => r.classification)
      ≠ some (some "Leve") := by
  have hv : MultiPointAnalyzer.valid_rois_of [("A", (36 : ℚ)), ("B", 35)]
      ["A", "B", "C"] = ["A", "B"] := rfl
  have h2 : ¬(MultiPointAnalyzer.valid_rois_of [("A", (36 : ℚ)), ("B", 35)]
      ["A", "B", "C"]).length < 2 := by
    rw [hv]
    norm_num
  have e1 : ((dictGet "A" [("A", (36 : ℚ)), ("B", 35)]).getD 0) = 36 := rfl
  have e2 : ((dictGet "B" [("A", (36 : ℚ)), ("B", 35)]).getD 0) = 35 := rfl
  have habs : |(36 : ℚ) - 35| = 1 := by norm_num
  rw [analyze_group_eq _ _ h2, hv]
  simp only [List.map_cons, List.map_nil, e1, e2, List.getD_cons_zero,
    List.getD_cons_succ, habs]
  norm_num
  decide

/-! ## Template-analysis omission lemmas (`analyze_template`) -/

/-- An ROI without coordinates, or whose selection captures no pixel,
produces no entry. -/
theorem roi_entry_none (select : MultiPointAnalyzer.AnatomicalROI → List ℚ)
    (roi : MultiPointAnalyzer.AnatomicalROI)
    (h : roi.coordinates = [] ∨ select roi = []) :
    MultiPointAnalyzer.roi_entry select roi = none := by
  simp only [MultiPointAnalyzer.roi_entry]
  split_ifs with h1 h2
  · rfl
  · exfalso
    rcases h with hc | hs
    · exact h1 hc
    · rw [hs] at h2
      simp at h2
  · rfl

/-- An entry's key is the name of the ROI that produced it. -/
theorem roi_entry_name (select : MultiPointAnalyzer.AnatomicalROI → List ℚ)
    (roi : MultiPointAnalyzer.AnatomicalROI) (e : String × ℚ × ℕ)
    (h : MultiPointAnalyzer.roi_entry select roi = some e) : e.1 = roi.name := by
  simp only [MultiPointAnalyzer.roi_entry] at h
  split_ifs at h
  rw [← Option.some.inj h]

/-- With unique template names, a skipped ROI's name appears on no
accumulated entry. -/
theorem skipped_name_not_mem (rois : List MultiPointAnalyzer.AnatomicalROI)
    (select : MultiPointAnalyzer.AnatomicalROI → List ℚ)
    (roi : MultiPointAnalyzer.AnatomicalROI) (hmem : roi ∈ rois)
    (hnd : (rois.map MultiPointAnalyzer.AnatomicalROI.name).Nodup)
    (hskip : MultiPointAnalyzer.roi_entry select roi = none) :
    ∀ e ∈ MultiPointAnalyzer.template_entries rois select, e.1 ≠ roi.name := by
  intro e he hne
  rcases List.mem_filterMap.mp he with ⟨roi2, hroi2, hent⟩
  have hname : e.1 = roi2.name := roi_entry_name select roi2 e hent
  have heq : roi2 = roi :=
    List.inj_on_of_nodup_map hnd hroi2 hmem (by rw [← hname, hne])
  rw [heq, hskip] at hent
  exact Option.noConfusion hent

/-- C10: an ROI with no coordinates, or whose scaled and clamped mask
selects zero pixels, is silently omitted from the temperature and
pixel-count maps of the template analysis; consequently it has no row and
no column in the comparison matrix, it counts as unknown in every
comparison group, and it contributes no (zero or otherwise) temperature
entry to any aggregate. -/
theorem C10_empty_roi_silently_omitted
    (rois : List MultiPointAnalyzer.AnatomicalROI)
    (select : MultiPointAnalyzer.AnatomicalROI → List ℚ)
    (roi : MultiPointAnalyzer.AnatomicalROI)
    (hmem : roi ∈ rois)
    (hnd : (rois.map MultiPointAnalyzer.AnatomicalROI.name).Nodup)
    (hskip : roi.coordinates = [] ∨ select roi = []) :
    dictGet roi.name (MultiPointAnalyzer.roi_temperatures_of rois select) = none ∧
    dictGet roi.name (MultiPointAnalyzer.roi_pixel_counts_of rois select) = none ∧
    (∀ p ∈ MultiPointAnalyzer.roi_temperatures_of rois select, p.1 ≠ roi.name) ∧
    dictGet roi.name (MultiPointAnalyzer.build_comparison_matrix
      (MultiPointAnalyzer.roi_temperatures_of rois select)) = none ∧
    (∀ row ∈ MultiPointAnalyzer.build_comparison_matrix
        (MultiPointAnalyzer.roi_temperatures_of rois select),
      dictGet roi.name row.2 = none) ∧
    (∀ group : List String,
      roi.name ∉ MultiPointAnalyzer.valid_rois_of
        (MultiPointAnalyzer.roi_temperatures_of rois select) group) := by
  have hentries := skipped_name_not_mem rois select roi hmem hnd
    (roi_entry_none select roi hskip)
  have hkeysT : roi.name ∉ (MultiPointAnalyzer.roi_temperatures_of rois select).map Prod.fst := by
    intro h
    rcases List.mem_map.mp h with ⟨p, hp, hp1⟩
    rcases List.mem_map.mp hp with ⟨e, he, hep⟩
    have : e.1 = roi.name := by rw [← hp1, ← hep]
    exact hentries e he this
  have hkeysC : roi.name ∉ (MultiPointAnalyzer.roi_pixel_counts_of rois select).map Prod.fst := by
    intro h
    rcases List.mem_map.mp h with ⟨p, hp, hp1⟩
    rcases List.mem_map.mp hp with ⟨e, he, hep⟩
    have : e.1 = roi.name := by rw [← hp1, ← hep]
    exact hentries e he this
  have hT : dictGet roi.name (MultiPointAnalyzer.roi_temperatures_of rois select) = none :=
    dictGet_eq_none roi.name _ hkeysT
  refine ⟨hT, dictGet_eq_none roi.name _ hkeysC, ?_, ?_, ?_, ?_⟩
  · intro p hp
    intro hp1
    exact hkeysT (by rw [← hp1]; exact List.mem_map_of_mem Prod.fst hp)
  · rw [dictGet_build_matrix, hT]
    rfl
  · intro row hrow
    rcases List.mem_map.mp hrow with ⟨p, hp, hpr⟩
    rw [← hpr]
    by_cases hpa : p.1 = roi.name
    · rw [hpa]
      exact dictGet_row_self roi.name p.2 _
    · rw [dictGet_row p.1 roi.name p.2 hpa _, hT]
      rfl
  · intro group hmemv
    have := (List.mem_filter.mp hmemv).2
    rw [hT] at this
    simp at this

/-- Witness for C10 at a concrete one-ROI template whose polygon has no
coordinates. -/
theorem C10_empty_roi_silently_omitted_witness :
    dictGet "left knee" (MultiPointAnalyzer.roi_temperatures_of
      [{ name := "left knee", anatomical_location := "knee",
         coordinates := [], region_type := "custom",
         expected_temp_range := none, notes := "" }] (fun _ => [])) = none :=
  (C10_empty_roi_silently_omitted
    [{ name := "left knee", anatomical_location := "knee",
       coordinates := [], region_type := "custom",
       expected_temp_range := none, notes := "" }] (fun _ => [])
    { name := "left knee", anatomical_location := "knee",
      coordinates := [], region_type := "custom",
      expected_temp_range := none, notes := "" }
    (List.mem_singleton.mpr rfl) (by simp) (Or.inl rfl)).1
